import Mathlib

/-!
# Verification of the WhatsApp bulk-messaging server core

Shallow embedding of `src/utils/sessionManager.js` (session registry, LRU
eviction, idle cleanup, per-session locks) and of the `/send-messages`
pipeline in `src/index.js` (recipient normalization, sequential dispatch,
partial-failure aggregation, lock release), together with theorems settling
the specification's testable properties.

JavaScript `Map` objects are modelled as insertion-ordered association
lists (`List (String × β)`): `Map.set` updates an existing entry in place
or appends a fresh one, `Map.delete` removes the entry, iteration follows
list order.  `Date.now()` timestamps are `Nat` values passed explicitly to
each operation.  The opaque `whatsapp-web.js` client handle is modelled as
a `Nat` drawn from a fresh-handle counter, so that "the client handle was
not replaced" is expressible.  Fallible external calls (`client.logout`,
`client.destroy`, `client.getNumberId`, `client.sendMessage`) are oracles:
their outcomes are extra parameters, and the embedding mirrors exactly the
`try`/`catch` structure of the source.
-/

set_option autoImplicit false

/-! ## Association lists modelling JavaScript `Map` -/

/-- `Map.get(k)`: first entry with key `k`, if any. -/
def alistGet {β : Type} (l : List (String × β)) (k : String) : Option β :=
  match l with
  | [] => none
  | p :: rest => if p.1 = k then some p.2 else alistGet rest k

/-- `Map.set(k, v)`: update the existing entry in place, else append. -/
def alistSet {β : Type} (l : List (String × β)) (k : String) (v : β) :
    List (String × β) :=
  if l.any (fun p => decide (p.1 = k)) then
    l.map (fun p => if p.1 = k then (k, v) else p)
  else
    l ++ [(k, v)]

/-- `Map.delete(k)`: remove the entry with key `k` (keys are unique in a
JavaScript `Map`, so removing every occurrence is the same operation). -/
def alistErase {β : Type} (l : List (String × β)) (k : String) :
    List (String × β) :=
  l.filter (fun p => ! decide (p.1 = k))

/-- Keys in iteration order. -/
def keysOf {β : Type} (l : List (String × β)) : List String :=
  l.map Prod.fst

@[simp] theorem alistGet_nil {β : Type} (k : String) :
    alistGet ([] : List (String × β)) k = none := rfl

@[simp] theorem alistGet_cons {β : Type} (p : String × β)
    (rest : List (String × β)) (k : String) :
    alistGet (p :: rest) k = if p.1 = k then some p.2 else alistGet rest k := rfl

@[simp] theorem keysOf_nil {β : Type} : keysOf ([] : List (String × β)) = [] := rfl

@[simp] theorem keysOf_cons {β : Type} (p : String × β) (l : List (String × β)) :
    keysOf (p :: l) = p.1 :: keysOf l := rfl

theorem alistGet_append_some {β : Type} {l1 : List (String × β)} {k : String}
    {v : β} (l2 : List (String × β)) (h : alistGet l1 k = some v) :
    alistGet (l1 ++ l2) k = some v := by
  induction l1 with
  | nil => simp at h
  | cons p rest ih =>
    by_cases hk : p.1 = k
    · simp [hk] at h ⊢; exact h
    · simp only [alistGet_cons, if_neg hk] at h
      simpa [hk] using ih h

theorem alistGet_append_none {β : Type} {l1 : List (String × β)} {k : String}
    (l2 : List (String × β)) (h : alistGet l1 k = none) :
    alistGet (l1 ++ l2) k = alistGet l2 k := by
  induction l1 with
  | nil => simp
  | cons p rest ih =>
    by_cases hk : p.1 = k
    · simp [hk] at h
    · simp only [alistGet_cons, if_neg hk] at h
      simpa [hk] using ih h

theorem alistGet_eq_none_of_forall {β : Type} (l : List (String × β))
    (k : String) (h : ∀ p ∈ l, p.1 ≠ k) : alistGet l k = none := by
  induction l with
  | nil => rfl
  | cons p rest ih =>
    have hk : p.1 ≠ k := h p (by simp)
    simp only [alistGet_cons, if_neg hk]
    exact ih (fun q hq => h q (by simp [hq]))

theorem forall_of_alistGet_eq_none {β : Type} (l : List (String × β))
    (k : String) (h : alistGet l k = none) : ∀ p ∈ l, p.1 ≠ k := by
  induction l with
  | nil => simp
  | cons p rest ih =>
    by_cases hk : p.1 = k
    · simp [hk] at h
    · simp only [alistGet_cons, if_neg hk] at h
      intro q hq
      rcases List.mem_cons.mp hq with h' | h'
      · rw [h']; exact hk
      · exact ih h q h'

theorem any_key_false_of_get_none {β : Type} (l : List (String × β))
    (k : String) (h : alistGet l k = none) :
    l.any (fun p => decide (p.1 = k)) = false := by
  rw [List.any_eq_false]
  intro p hp
  simpa using forall_of_alistGet_eq_none l k h p hp

theorem alistGet_mapUpd_self {β : Type} (l : List (String × β)) (k : String)
    (v : β) (h : l.any (fun p => decide (p.1 = k)) = true) :
    alistGet (l.map (fun p => if p.1 = k then (k, v) else p)) k = some v := by
  induction l with
  | nil => simp at h
  | cons p rest ih =>
    by_cases hk : p.1 = k
    · simp [hk]
    · simp only [List.any_cons, Bool.or_eq_true, decide_eq_true_eq] at h
      rcases h with h | h
      · exact absurd h hk
      · simp only [List.map_cons, if_neg hk, alistGet_cons, if_neg hk]
        exact ih h

theorem alistGet_mapUpd_ne {β : Type} (l : List (String × β)) (k k' : String)
    (v : β) (hne : k' ≠ k) :
    alistGet (l.map (fun p => if p.1 = k then (k, v) else p)) k' =
      alistGet l k' := by
  induction l with
  | nil => rfl
  | cons p rest ih =>
    by_cases hk : p.1 = k
    · have h1 : ¬ (k : String) = k' := Ne.symm hne
      have h2 : ¬ p.1 = k' := by rw [hk]; exact Ne.symm hne
      simp only [List.map_cons, if_pos hk, alistGet_cons, if_neg h1, if_neg h2]
      exact ih
    · simp only [List.map_cons, if_neg hk, alistGet_cons]
      by_cases hk' : p.1 = k'
      · simp [hk']
      · simp [hk', ih]

theorem alistGet_set_self {β : Type} (l : List (String × β)) (k : String)
    (v : β) : alistGet (alistSet l k v) k = some v := by
  unfold alistSet
  split
  · exact alistGet_mapUpd_self l k v (by assumption)
  · rename_i h
    have h0 : l.any (fun p => decide (p.1 = k)) = false := by
      rcases Bool.eq_false_or_eq_true (l.any (fun p => decide (p.1 = k))) with
        h' | h'
      · exact absurd h' h
      · exact h'
    have hget : alistGet l k = none := by
      apply alistGet_eq_none_of_forall
      intro p hp
      have := List.any_eq_false.mp h0 p hp
      simpa using this
    rw [alistGet_append_none _ hget]
    simp

theorem alistGet_set_ne {β : Type} (l : List (String × β)) (k k' : String)
    (v : β) (hne : k' ≠ k) :
    alistGet (alistSet l k v) k' = alistGet l k' := by
  unfold alistSet
  split
  · exact alistGet_mapUpd_ne l k k' v hne
  · rcases h : alistGet l k' with _ | w
    · rw [alistGet_append_none _ h]
      simp [Ne.symm hne]
    · exact alistGet_append_some _ h

theorem alistErase_cons_self {β : Type} (p : String × β)
    (rest : List (String × β)) (k : String) (hk : p.1 = k) :
    alistErase (p :: rest) k = alistErase rest k := by
  simp [alistErase, hk]

theorem alistErase_cons_ne {β : Type} (p : String × β)
    (rest : List (String × β)) (k : String) (hk : ¬ p.1 = k) :
    alistErase (p :: rest) k = p :: alistErase rest k := by
  simp [alistErase, hk]

theorem alistGet_erase_self {β : Type} (l : List (String × β)) (k : String) :
    alistGet (alistErase l k) k = none := by
  induction l with
  | nil => rfl
  | cons p rest ih =>
    by_cases hk : p.1 = k
    · rw [alistErase_cons_self p rest k hk]; exact ih
    · rw [alistErase_cons_ne p rest k hk, alistGet_cons, if_neg hk]; exact ih

theorem alistGet_erase_ne {β : Type} (l : List (String × β)) (k k' : String)
    (hne : k' ≠ k) :
    alistGet (alistErase l k) k' = alistGet l k' := by
  induction l with
  | nil => rfl
  | cons p rest ih =>
    by_cases hk : p.1 = k
    · have h2 : ¬ p.1 = k' := by rw [hk]; exact Ne.symm hne
      rw [alistErase_cons_self p rest k hk, alistGet_cons, if_neg h2]
      exact ih
    · rw [alistErase_cons_ne p rest k hk, alistGet_cons, alistGet_cons]
      by_cases hk' : p.1 = k'
      · simp [hk']
      · simp [hk', ih]

theorem alistErase_idem {β : Type} (l : List (String × β)) (k : String) :
    alistErase (alistErase l k) k = alistErase l k := by
  simp [alistErase, List.filter_filter]

theorem alistErase_of_not_mem {β : Type} (l : List (String × β)) (k : String)
    (h : alistGet l k = none) : alistErase l k = l := by
  induction l with
  | nil => rfl
  | cons p rest ih =>
    by_cases hk : p.1 = k
    · simp [hk] at h
    · simp only [alistGet_cons, if_neg hk] at h
      have step : alistErase (p :: rest) k = p :: alistErase rest k := by
        simp [alistErase, hk]
      rw [step, ih h]

theorem alistGet_none_of_erased {β : Type} (l : List (String × β))
    (k k' : String) (h : alistGet l k = none) :
    alistGet (alistErase l k') k = none := by
  by_cases hk : k = k'
  · subst hk; exact alistGet_erase_self l k
  · rw [alistGet_erase_ne l k' k hk]; exact h

theorem keysOf_filterKey {β : Type} (l : List (String × β)) (q : String → Bool) :
    keysOf (l.filter (fun p => q p.1)) = (keysOf l).filter q := by
  induction l with
  | nil => rfl
  | cons p rest ih =>
    rcases hq : q p.1 with _ | _
    · simpa [List.filter_cons, hq] using ih
    · simpa [List.filter_cons, hq] using ih

theorem keysOf_erase {β : Type} (l : List (String × β)) (k : String) :
    keysOf (alistErase l k) = (keysOf l).filter (fun x => ! decide (x = k)) :=
  keysOf_filterKey l (fun x => ! decide (x = k))

theorem mem_keysOf_iff {β : Type} (l : List (String × β)) (k : String) :
    k ∈ keysOf l ↔ (alistGet l k).isSome := by
  induction l with
  | nil => simp
  | cons p rest ih =>
    by_cases hk : p.1 = k
    · simp [List.mem_cons, hk]
    · have h1 : ¬ k = p.1 := fun h => hk h.symm
      simp only [keysOf_cons, List.mem_cons, alistGet_cons, if_neg hk]
      simp [h1, ih]

theorem alistErase_length {β : Type} (l : List (String × β)) (k : String)
    (hnd : (keysOf l).Nodup) (hmem : k ∈ keysOf l) :
    (alistErase l k).length + 1 = l.length := by
  induction l with
  | nil => simp at hmem
  | cons p rest ih =>
    simp only [keysOf_cons, List.nodup_cons] at hnd
    by_cases hk : p.1 = k
    · have hnotmem : k ∉ keysOf rest := hk ▸ hnd.1
      have hget : alistGet rest k = none := by
        rcases h : alistGet rest k with _ | v
        · rfl
        · exact absurd ((mem_keysOf_iff rest k).mpr (by simp [h])) hnotmem
      have step : alistErase (p :: rest) k = alistErase rest k := by
        simp [alistErase, hk]
      rw [step, alistErase_of_not_mem rest k hget]
      simp
    · have hmem' : k ∈ keysOf rest := by
        rcases List.mem_cons.mp hmem with h | h
        · exact absurd h.symm hk
        · exact h
      have step : alistErase (p :: rest) k = p :: alistErase rest k := by
        simp [alistErase, hk]
      rw [step]
      simp only [List.length_cons]
      have := ih hnd.2 hmem'
      omega

theorem alistSet_mem {β : Type} (l : List (String × β)) (k : String) (v : β)
    (p : String × β) (hp : p ∈ alistSet l k v) : p ∈ l ∨ p = (k, v) := by
  unfold alistSet at hp
  split at hp
  · rw [List.mem_map] at hp
    obtain ⟨q, hq, hqe⟩ := hp
    by_cases hk : q.1 = k
    · right; rw [← hqe]; simp [hk]
    · left; rw [← hqe]; simpa [hk] using hq
  · rcases List.mem_append.mp hp with h | h
    · left; exact h
    · right; simpa using h

theorem keysOf_set_of_not_mem {β : Type} (l : List (String × β)) (k : String)
    (v : β) (h : alistGet l k = none) :
    keysOf (alistSet l k v) = keysOf l ++ [k] := by
  have hany := any_key_false_of_get_none l k h
  simp [alistSet, hany, keysOf]

theorem alistSet_length_of_not_mem {β : Type} (l : List (String × β))
    (k : String) (v : β) (h : alistGet l k = none) :
    (alistSet l k v).length = l.length + 1 := by
  have h1 := keysOf_set_of_not_mem l k v h
  have h2 : (keysOf (alistSet l k v)).length = (keysOf l ++ [k]).length := by
    rw [h1]
  simpa [keysOf] using h2

/-! ## SessionManager state (`src/utils/sessionManager.js`)

The five `Map` fields of the `SessionManager` class, plus a counter
producing fresh client-handle identities (each `new Client(...)` in the
source yields a distinct handle). -/

structure SMState where
  sessions : List (String × Nat)
  qrCodes : List (String × Option String)
  sessionStatus : List (String × String)
  lastActivity : List (String × Nat)
  sessionLocks : List (String × Nat)
  nextHandle : Nat
deriving Repr, DecidableEq

def emptyState : SMState := ⟨[], [], [], [], [], 0⟩

/-- JavaScript `x || y` on a possibly-`undefined` string: `undefined` and
the empty string are falsy. -/
def jsFalsyOr (a : Option String) (b : String) : String :=
  match a with
  | none => b
  | some s => if s = "" then b else s

/-- `getSessionStatus(userId)`: `this.sessionStatus.get(userId) || 'no_session'`. -/
def getSessionStatus (s : SMState) (userId : String) : String :=
  jsFalsyOr (alistGet s.sessionStatus userId) "no_session"

/-- `updateActivity(userId)`: `this.lastActivity.set(userId, Date.now())`. -/
def updateActivity (now : Nat) (s : SMState) (userId : String) : SMState :=
  { s with lastActivity := alistSet s.lastActivity userId now }

/-- The in-memory purge performed by `destroySession(userId)` (lines
166–171 of `sessionManager.js`): delete the id from all five maps.  The
on-disk artifact removal is fire-and-forget (`fs.rm` with a callback) and
does not touch this state. -/
def destroySessionState (s : SMState) (userId : String) : SMState :=
  { s with
    sessions := alistErase s.sessions userId,
    qrCodes := alistErase s.qrCodes userId,
    sessionStatus := alistErase s.sessionStatus userId,
    lastActivity := alistErase s.lastActivity userId,
    sessionLocks := alistErase s.sessionLocks userId }

/-- Calls `destroySession` makes into the external client. -/
inductive ClientAction where
  | logoutCall (userId : String)
  | destroyCall (userId : String)
deriving Repr, DecidableEq

/-- Full `destroySession(userId)`: if a client handle exists, attempt
`client.logout()` when the status is `ready` or `authenticated` and then
`client.destroy()` — both wrapped in `try`/`catch` in the source, so their
outcomes (`logoutErr`, `destroyErr` oracles) never influence the ensuing
in-memory purge.  Returns the new state and the client calls made. -/
def destroySessionRun (logoutErr destroyErr : Option String) (s : SMState)
    (userId : String) : SMState × List ClientAction :=
  match alistGet s.sessions userId with
  | some _ =>
    let status := alistGet s.sessionStatus userId
    let acts :=
      (if (status.map (fun st => ["ready", "authenticated"].contains st)).getD false
       then [ClientAction.logoutCall userId] else [])
      ++ [ClientAction.destroyCall userId]
    (destroySessionState s userId, acts)
  | none => (destroySessionState s userId, [])

theorem destroySessionRun_fst (logoutErr destroyErr : Option String)
    (s : SMState) (userId : String) :
    (destroySessionRun logoutErr destroyErr s userId).1 =
      destroySessionState s userId := by
  unfold destroySessionRun
  rcases alistGet s.sessions userId with _ | h <;> rfl

/-- `getOldestSession()` scan loop: starts from `oldestTime = Date.now()`
and keeps the first entry strictly smaller than the running minimum. -/
def getOldestGo (l : List (String × Nat)) (oldestTime : Nat)
    (best : Option String) : Option String :=
  match l with
  | [] => best
  | (u, t) :: rest =>
    if t < oldestTime then getOldestGo rest t (some u)
    else getOldestGo rest oldestTime best

/-- `getOldestSession()`: iterate `this.lastActivity` in insertion order. -/
def getOldestSession (now : Nat) (la : List (String × Nat)) : Option String :=
  getOldestGo la now none

/-- `acquireLock(userId)`: non-blocking; `false` if a token exists,
otherwise store the acquisition time and return `true`. -/
def acquireLock (now : Nat) (s : SMState) (userId : String) : Bool × SMState :=
  if (alistGet s.sessionLocks userId).isSome then (false, s)
  else (true, { s with sessionLocks := alistSet s.sessionLocks userId now })

/-- `releaseLock(userId)`: `this.sessionLocks.delete(userId)`. -/
def releaseLock (s : SMState) (userId : String) : SMState :=
  { s with sessionLocks := alistErase s.sessionLocks userId }

/-- The statuses treated as live by `createSession`'s short-circuit. -/
def liveStatuses : List String := ["ready", "initializing", "needs_scan", "authenticated"]

/-- Result shape of `createSession` (success flag and reported status). -/
structure CreateResult where
  success : Bool
  status : String
deriving Repr, DecidableEq

/-- Fresh-session construction in `createSession` (lines 66–107): set
status `initializing`, QR `null`, touch activity, register a new client
handle; `await client.initialize()` succeeds or throws per the
`initResult` oracle — on a throw the partial session is destroyed and an
`init_error` result returned. -/
def freshCreate (now : Nat) (initResult : Except String Unit) (s : SMState)
    (userId : String) : SMState × CreateResult :=
  let s1 := { s with
    sessionStatus := alistSet s.sessionStatus userId "initializing",
    qrCodes := alistSet s.qrCodes userId none,
    lastActivity := alistSet s.lastActivity userId now }
  let s2 := { s1 with
    sessions := alistSet s1.sessions userId s1.nextHandle,
    nextHandle := s1.nextHandle + 1 }
  match initResult with
  | .ok _ =>
    (s2, { success := true,
           status := jsFalsyOr (alistGet s2.sessionStatus userId) "" })
  | .error _ => (destroySessionState s2 userId, { success := false, status := "init_error" })

/-- `createSession` after the capacity check (lines 54–107): idempotent
short-circuit on a live status, otherwise destroy any stale record and
build a fresh session. -/
def createSessionCore (now : Nat) (initResult : Except String Unit)
    (s : SMState) (userId : String) : SMState × CreateResult :=
  match alistGet s.sessions userId with
  | some _ =>
    match alistGet s.sessionStatus userId with
    | some st =>
      if liveStatuses.contains st then (s, { success := true, status := st })
      else freshCreate now initResult (destroySessionState s userId) userId
    | none => freshCreate now initResult (destroySessionState s userId) userId
  | none => freshCreate now initResult s userId

/-- `createSession(userId)` (lines 41–108): if `sessions.size >=
maxSessions`, remove the session returned by `getOldestSession()` (when
any), then proceed with the core. -/
def createSession (maxS now : Nat) (initResult : Except String Unit)
    (s : SMState) (userId : String) : SMState × CreateResult :=
  let s1 :=
    if maxS ≤ s.sessions.length then
      match getOldestSession now s.lastActivity with
      | some victim => destroySessionState s victim
      | none => s
    else s
  createSessionCore now initResult s1 userId

/-- Lifecycle events emitted by the external client (wired in
`setupEventHandlers`, lines 110–143). -/
inductive WEvent where
  | qrSignal (payload : String)
  | readySignal
  | authenticatedSignal
  | authFailureSignal
  | disconnectedSignal
deriving Repr, DecidableEq

/-- The event handlers of `setupEventHandlers`: `qr`/`ready`/`authenticated`
set status and QR and call `updateActivity`; `auth_failure` and
`disconnected` set the status and call `destroySession` — without touching
`lastActivity`. -/
def handleEvent (now : Nat) (s : SMState) (userId : String) :
    WEvent → SMState
  | .qrSignal payload =>
    let s1 := { s with
      qrCodes := alistSet s.qrCodes userId (some payload),
      sessionStatus := alistSet s.sessionStatus userId "needs_scan" }
    updateActivity now s1 userId
  | .readySignal =>
    let s1 := { s with
      sessionStatus := alistSet s.sessionStatus userId "ready",
      qrCodes := alistSet s.qrCodes userId none }
    updateActivity now s1 userId
  | .authenticatedSignal =>
    let s1 := { s with
      sessionStatus := alistSet s.sessionStatus userId "authenticated",
      qrCodes := alistSet s.qrCodes userId none }
    updateActivity now s1 userId
  | .authFailureSignal =>
    destroySessionState
      { s with sessionStatus := alistSet s.sessionStatus userId "auth_failure" }
      userId
  | .disconnectedSignal =>
    destroySessionState
      { s with sessionStatus := alistSet s.sessionStatus userId "disconnected" }
      userId

/-- `cleanupInactiveSessions()` (lines 223–245): collect every id whose
idle time `now - lastActivity` strictly exceeds `timeoutMs`, then destroy
each in turn; `teardownErrs` supplies the (caught, hence irrelevant)
logout/destroy outcomes per victim. -/
def cleanupInactiveSessions (now timeoutMs : Nat)
    (teardownErrs : String → Option String × Option String) (s : SMState) :
    SMState :=
  let sessionsToRemove :=
    (s.lastActivity.filter (fun p => decide (timeoutMs < now - p.2))).map Prod.fst
  sessionsToRemove.foldl
    (fun st u => (destroySessionRun (teardownErrs u).1 (teardownErrs u).2 st u).1)
    s

/-! ## The LRU scan of `getOldestSession` -/

theorem getOldestGo_spec (l : List (String × Nat)) :
    ∀ (time : Nat) (b : Option String),
      (getOldestGo l time b = none → b = none ∧ ∀ p ∈ l, time ≤ p.2) ∧
      (∀ v, getOldestGo l time b = some v →
        (b = some v ∧ ∀ p ∈ l, time ≤ p.2) ∨
        (∃ tv, (v, tv) ∈ l ∧ tv < time ∧ ∀ p ∈ l, tv ≤ p.2)) := by
  induction l with
  | nil =>
    intro time b
    constructor
    · intro h; exact ⟨h, by simp⟩
    · intro v h; left; exact ⟨h, by simp⟩
  | cons p rest ih =>
    intro time b
    obtain ⟨u, t⟩ := p
    constructor
    · intro h
      simp only [getOldestGo] at h
      split at h
      · have := (ih t (some u)).1 h
        exact absurd this.1 (by simp)
      · rename_i hge
        have := (ih time b).1 h
        refine ⟨this.1, ?_⟩
        intro q hq
        rcases List.mem_cons.mp hq with h' | h'
        · rw [h']; omega
        · exact this.2 q h'
    · intro v h
      simp only [getOldestGo] at h
      split at h
      · rename_i hlt
        rcases (ih t (some u)).2 v h with ⟨hb, hall⟩ | ⟨tv, hmem, hlt', hall⟩
        · right
          have hu : u = v := by simpa using hb
          refine ⟨t, ?_, hlt, ?_⟩
          · rw [← hu]; exact List.mem_cons_self _ _
          · intro q hq
            rcases List.mem_cons.mp hq with h' | h'
            · rw [h']
            · exact hall q h'
        · right
          refine ⟨tv, List.mem_cons_of_mem _ hmem, by omega, ?_⟩
          intro q hq
          rcases List.mem_cons.mp hq with h' | h'
          · rw [h']; simp; omega
          · exact hall q h'
      · rename_i hge
        rcases (ih time b).2 v h with ⟨hb, hall⟩ | ⟨tv, hmem, hlt', hall⟩
        · left
          refine ⟨hb, ?_⟩
          intro q hq
          rcases List.mem_cons.mp hq with h' | h'
          · rw [h']; omega
          · exact hall q h'
        · right
          refine ⟨tv, List.mem_cons_of_mem _ hmem, hlt', ?_⟩
          intro q hq
          rcases List.mem_cons.mp hq with h' | h'
          · rw [h']; simp; omega
          · exact hall q h'

/-- When some tracked session has `lastActivity` strictly before `now`,
the scan returns a victim attaining the minimum `lastActivity`. -/
theorem getOldestSession_argmin (now : Nat) (la : List (String × Nat))
    (h : ∃ p ∈ la, p.2 < now) :
    ∃ v tv, getOldestSession now la = some v ∧ (v, tv) ∈ la ∧ tv < now ∧
      ∀ p ∈ la, tv ≤ p.2 := by
  rcases hres : getOldestSession now la with _ | v
  · obtain ⟨hb, hall⟩ := (getOldestGo_spec la now none).1 hres
    obtain ⟨p, hp, hlt⟩ := h
    exact absurd (hall p hp) (by omega)
  · rcases (getOldestGo_spec la now none).2 v hres with ⟨hb, -⟩ |
      ⟨tv, hmem, hlt, hall⟩
    · simp at hb
    · exact ⟨v, tv, rfl, hmem, hlt, hall⟩

/-! ## Registry well-formedness and the capacity invariant -/

/-- The `sessions` and `lastActivity` maps track the same ids (in the same
insertion order), without duplicates — true of every state the
`SessionManager` can reach, since the two maps are always populated and
purged together. -/
def WF (s : SMState) : Prop :=
  keysOf s.sessions = keysOf s.lastActivity ∧ (keysOf s.sessions).Nodup

/-- All stored `lastActivity` stamps come from the given set of clock
readings. -/
def ActsMem (s : SMState) (ts : List Nat) : Prop :=
  ∀ p ∈ s.lastActivity, p.2 ∈ ts

theorem WF_empty : WF emptyState := by
  constructor <;> simp [emptyState, keysOf]

theorem destroy_WF (s : SMState) (uid : String) (hwf : WF s) :
    WF (destroySessionState s uid) := by
  obtain ⟨hkeys, hnd⟩ := hwf
  constructor
  · simp only [destroySessionState, keysOf_erase, hkeys]
  · simp only [destroySessionState, keysOf_erase]
    exact hnd.filter _

theorem destroy_ActsMem (s : SMState) (uid : String) (ts : List Nat)
    (h : ActsMem s ts) : ActsMem (destroySessionState s uid) ts := by
  intro p hp
  exact h p (List.mem_of_mem_filter hp)

theorem destroy_length_le (s : SMState) (uid : String) :
    (destroySessionState s uid).sessions.length ≤ s.sessions.length :=
  List.length_filter_le _ _

theorem destroy_length_of_mem (s : SMState) (uid : String) (hwf : WF s)
    (hmem : uid ∈ keysOf s.sessions) :
    (destroySessionState s uid).sessions.length + 1 = s.sessions.length :=
  alistErase_length s.sessions uid hwf.2 hmem

theorem WF_get_lastActivity_none (s : SMState) (uid : String) (hwf : WF s)
    (h : alistGet s.sessions uid = none) :
    alistGet s.lastActivity uid = none := by
  rcases hla : alistGet s.lastActivity uid with _ | v
  · rfl
  · have : uid ∈ keysOf s.lastActivity :=
      (mem_keysOf_iff _ _).mpr (by simp [hla])
    rw [← hwf.1, mem_keysOf_iff, h] at this
    simp at this

theorem freshCreate_inv (now : Nat) (initResult : Except String Unit)
    (s : SMState) (uid : String) (ts : List Nat) (hwf : WF s)
    (habs : alistGet s.sessions uid = none) (hacts : ActsMem s ts) :
    WF (freshCreate now initResult s uid).1 ∧
      (freshCreate now initResult s uid).1.sessions.length ≤
        s.sessions.length + 1 ∧
      ActsMem (freshCreate now initResult s uid).1 (now :: ts) := by
  have hla : alistGet s.lastActivity uid = none :=
    WF_get_lastActivity_none s uid hwf habs
  have hkeys2 : keysOf (alistSet s.sessions uid s.nextHandle) =
      keysOf s.lastActivity ++ [uid] := by
    rw [keysOf_set_of_not_mem _ _ _ habs, hwf.1]
  have hkeysla : keysOf (alistSet s.lastActivity uid now) =
      keysOf s.lastActivity ++ [uid] :=
    keysOf_set_of_not_mem _ _ _ hla
  have hndmem : uid ∉ keysOf s.sessions := by
    rw [mem_keysOf_iff, habs]; simp
  have hwf2 : WF { s with
      sessionStatus := alistSet s.sessionStatus uid "initializing",
      qrCodes := alistSet s.qrCodes uid none,
      lastActivity := alistSet s.lastActivity uid now,
      sessions := alistSet s.sessions uid s.nextHandle,
      nextHandle := s.nextHandle + 1 } := by
    constructor
    · simpa [hkeys2] using hkeysla.symm
    · show (keysOf (alistSet s.sessions uid s.nextHandle)).Nodup
      rw [keysOf_set_of_not_mem _ _ _ habs, List.nodup_append]
      refine ⟨hwf.2, by simp, ?_⟩
      intro a ha ha2
      have : a = uid := by simpa using ha2
      rw [this] at ha
      exact hndmem ha
  have hlen2 : (alistSet s.sessions uid s.nextHandle).length =
      s.sessions.length + 1 := alistSet_length_of_not_mem _ _ _ habs
  have hacts2 : ∀ p ∈ alistSet s.lastActivity uid now, p.2 ∈ now :: ts := by
    intro p hp
    rcases alistSet_mem _ _ _ _ hp with h | h
    · exact List.mem_cons_of_mem _ (hacts p h)
    · rw [h]; exact List.mem_cons_self _ _
  rcases initResult with e | u
  · dsimp only [freshCreate]
    refine ⟨destroy_WF _ _ hwf2, ?_, ?_⟩
    · calc (destroySessionState { s with
            sessionStatus := alistSet s.sessionStatus uid "initializing",
            qrCodes := alistSet s.qrCodes uid none,
            lastActivity := alistSet s.lastActivity uid now,
            sessions := alistSet s.sessions uid s.nextHandle,
            nextHandle := s.nextHandle + 1 } uid).sessions.length
          ≤ (alistSet s.sessions uid s.nextHandle).length :=
            List.length_filter_le _ _
        _ = s.sessions.length + 1 := hlen2
        _ ≤ s.sessions.length + 1 := Nat.le_refl _
    · intro p hp
      exact hacts2 p (List.mem_of_mem_filter hp)
  · dsimp only [freshCreate]
    refine ⟨hwf2, ?_, ?_⟩
    · exact Nat.le_of_eq hlen2
    · intro p hp
      exact hacts2 p hp

theorem createSessionCore_inv (now : Nat) (initResult : Except String Unit)
    (s : SMState) (uid : String) (ts : List Nat) (hwf : WF s)
    (hacts : ActsMem s ts) :
    WF (createSessionCore now initResult s uid).1 ∧
      (createSessionCore now initResult s uid).1.sessions.length ≤
        s.sessions.length + 1 ∧
      ActsMem (createSessionCore now initResult s uid).1 (now :: ts) := by
  unfold createSessionCore
  rcases hses : alistGet s.sessions uid with _ | h
  · have := freshCreate_inv now initResult s uid ts hwf hses hacts
    exact this
  · rcases hst : alistGet s.sessionStatus uid with _ | st
    · have hd := destroy_WF s uid hwf
      have habs : alistGet (destroySessionState s uid).sessions uid = none :=
        alistGet_erase_self _ _
      have hda : ActsMem (destroySessionState s uid) ts :=
        destroy_ActsMem s uid ts hacts
      obtain ⟨h1, h2, h3⟩ :=
        freshCreate_inv now initResult (destroySessionState s uid) uid ts hd
          habs hda
      refine ⟨h1, ?_, h3⟩
      calc (freshCreate now initResult (destroySessionState s uid) uid).1.sessions.length
          ≤ (destroySessionState s uid).sessions.length + 1 := h2
        _ ≤ s.sessions.length + 1 :=
            Nat.add_le_add_right (destroy_length_le s uid) 1
    · dsimp only
      by_cases hlive : liveStatuses.contains st
      · rw [if_pos hlive]
        refine ⟨hwf, Nat.le_succ _, ?_⟩
        intro p hp
        exact List.mem_cons_of_mem _ (hacts p hp)
      · rw [if_neg hlive]
        have hd := destroy_WF s uid hwf
        have habs : alistGet (destroySessionState s uid).sessions uid = none :=
          alistGet_erase_self _ _
        have hda : ActsMem (destroySessionState s uid) ts :=
          destroy_ActsMem s uid ts hacts
        obtain ⟨h1, h2, h3⟩ :=
          freshCreate_inv now initResult (destroySessionState s uid) uid ts hd
            habs hda
        refine ⟨h1, ?_, h3⟩
        calc (freshCreate now initResult (destroySessionState s uid) uid).1.sessions.length
            ≤ (destroySessionState s uid).sessions.length + 1 := h2
          _ ≤ s.sessions.length + 1 :=
              Nat.add_le_add_right (destroy_length_le s uid) 1

/-- The step `createSession` takes when the registry is at (or beyond)
capacity and every tracked `lastActivity` is strictly before `now`: the
scan selects a victim with minimal `lastActivity`, exactly that one
session is removed, and the call proceeds as the core applied to the
shrunken state. -/
theorem createSession_at_capacity (maxS now : Nat)
    (initResult : Except String Unit) (s : SMState) (uid : String)
    (hwf : WF s) (hcap : maxS ≤ s.sessions.length) (hmax : 1 ≤ maxS)
    (hall : ∀ p ∈ s.lastActivity, p.2 < now) :
    ∃ v tv, (v, tv) ∈ s.lastActivity ∧ (∀ p ∈ s.lastActivity, tv ≤ p.2) ∧
      createSession maxS now initResult s uid =
        createSessionCore now initResult (destroySessionState s v) uid ∧
      (destroySessionState s v).sessions.length + 1 = s.sessions.length := by
  have hlaLen : s.lastActivity.length = s.sessions.length := by
    have h1 : (keysOf s.sessions).length = (keysOf s.lastActivity).length := by
      rw [hwf.1]
    simpa [keysOf] using h1.symm
  have hne : s.lastActivity ≠ [] := by
    intro h
    rw [h] at hlaLen
    simp at hlaLen
    omega
  obtain ⟨p0, hp0⟩ := List.exists_mem_of_ne_nil _ hne
  obtain ⟨v, tv, hsome, hmem, hlt, hmin⟩ :=
    getOldestSession_argmin now s.lastActivity ⟨p0, hp0, hall p0 hp0⟩
  have hvkeys : v ∈ keysOf s.sessions := by
    rw [hwf.1]
    exact (List.mem_map).mpr ⟨(v, tv), hmem, rfl⟩
  refine ⟨v, tv, hmem, hmin, ?_, destroy_length_of_mem s v hwf hvkeys⟩
  unfold createSession
  rw [if_pos hcap, hsome]

theorem createSession_inv (maxS now : Nat) (initResult : Except String Unit)
    (s : SMState) (uid : String) (ts : List Nat) (hwf : WF s)
    (hlen : s.sessions.length ≤ maxS) (hmax : 1 ≤ maxS)
    (hacts : ActsMem s ts) (hlt : ∀ t ∈ ts, t < now) :
    WF (createSession maxS now initResult s uid).1 ∧
      (createSession maxS now initResult s uid).1.sessions.length ≤ maxS ∧
      ActsMem (createSession maxS now initResult s uid).1 (now :: ts) := by
  by_cases hcap : maxS ≤ s.sessions.length
  · have hall : ∀ p ∈ s.lastActivity, p.2 < now := fun p hp =>
      hlt p.2 (hacts p hp)
    obtain ⟨v, tv, hmem, hmin, heq, hlen1⟩ :=
      createSession_at_capacity maxS now initResult s uid hwf hcap hmax hall
    rw [heq]
    have hdwf := destroy_WF s v hwf
    have hda := destroy_ActsMem s v ts hacts
    obtain ⟨h1, h2, h3⟩ :=
      createSessionCore_inv now initResult (destroySessionState s v) uid ts
        hdwf hda
    refine ⟨h1, ?_, h3⟩
    omega
  · have heq : createSession maxS now initResult s uid =
        createSessionCore now initResult s uid := by
      unfold createSession
      rw [if_neg hcap]
    rw [heq]
    obtain ⟨h1, h2, h3⟩ :=
      createSessionCore_inv now initResult s uid ts hwf hacts
    refine ⟨h1, ?_, h3⟩
    omega

/-! ## Sequences of `createSession` calls -/

/-- One recorded `createSession` invocation: target id, the `Date.now()`
reading during the call, and the `client.initialize()` outcome. -/
def CreateCall : Type := String × Nat × Except String Unit

def callId (c : CreateCall) : String := c.1

def callTime (c : CreateCall) : Nat := c.2.1

def callInit (c : CreateCall) : Except String Unit := c.2.2

def stepCall (maxS : Nat) (s : SMState) (c : CreateCall) : SMState :=
  (createSession maxS (callTime c) (callInit c) s (callId c)).1

/-- Replay a sequence of `createSession` calls against a fresh manager. -/
def runCreates (maxS : Nat) (calls : List CreateCall) : SMState :=
  calls.foldl (stepCall maxS) emptyState

theorem runCreates_append_one (maxS : Nat) (calls : List CreateCall)
    (c : CreateCall) :
    runCreates maxS (calls ++ [c]) = stepCall maxS (runCreates maxS calls) c := by
  simp [runCreates, List.foldl_append]

theorem runCreates_inv (maxS : Nat) (hmax : 1 ≤ maxS)
    (calls : List CreateCall)
    (hmono : (calls.map callTime).Pairwise (· < ·)) :
    WF (runCreates maxS calls) ∧
      (runCreates maxS calls).sessions.length ≤ maxS ∧
      ActsMem (runCreates maxS calls) (calls.map callTime) := by
  induction calls using List.reverseRecOn with
  | nil =>
    refine ⟨WF_empty, by simp [runCreates, emptyState], ?_⟩
    intro p hp
    simp [runCreates, emptyState] at hp
  | append_singleton l c ih =>
    rw [List.map_append, List.pairwise_append] at hmono
    obtain ⟨hm1, hm2, hm3⟩ := hmono
    obtain ⟨h1, h2, h3⟩ := ih hm1
    rw [runCreates_append_one]
    have hlt : ∀ t ∈ l.map callTime, t < callTime c := by
      intro t ht
      exact hm3 t ht (callTime c) (by simp)
    obtain ⟨g1, g2, g3⟩ :=
      createSession_inv maxS (callTime c) (callInit c) (runCreates maxS l)
        (callId c) (l.map callTime) h1 h2 hmax h3 hlt
    refine ⟨g1, g2, ?_⟩
    intro p hp
    have := g3 p hp
    rw [List.map_append]
    rcases List.mem_cons.mp this with h' | h'
    · simp [h']
    · simp [h']

/-- Two `createSession` calls landing in the same millisecond
(`Date.now()` reads 0 both times) against a registry capped at one
session. -/
def c1Calls : List CreateCall := [("a", 0, Except.ok ()), ("b", 0, Except.ok ())]

/-- Same shape, but the two calls happen in distinct milliseconds. -/
def c1WitnessCalls : List CreateCall :=
  [("a", 0, Except.ok ()), ("b", 1, Except.ok ())]

/-- Claim C1 is false as stated: with `maxSessions = 1`, creating session
"a" and then session "b" in the same millisecond leaves BOTH sessions
live — the scan of `getOldestSession` starts its running minimum at
`Date.now()` and only accepts strictly smaller stamps, so session "a"
(whose `lastActivity` equals the current time) is never selected, no
eviction happens, and the live count reaches 2 > maxSessions = 1. -/
theorem c1_capacity_counterexample :
    (runCreates 1 c1Calls).sessions.length = 2 ∧
      1 < (runCreates 1 c1Calls).sessions.length ∧
      alistGet (runCreates 1 c1Calls).sessions "a" = some 0 ∧
      alistGet (runCreates 1 c1Calls).sessions "b" = some 1 := by
  decide

/-- Claim C1 (amended): for every sequence of `createSession` calls whose
`Date.now()` readings are strictly increasing (so every stored
`lastActivity` is strictly earlier than the clock at each later call),
the live session count never exceeds `maxSessions` at any prefix, and
whenever a call finds the registry at capacity it removes exactly one
session — one attaining the minimal `lastActivity` — before proceeding
with the admission logic on the shrunken registry. -/
theorem createSession_capacity_invariant (maxS : Nat) (hmax : 1 ≤ maxS)
    (calls : List CreateCall)
    (hmono : (calls.map callTime).Pairwise (· < ·)) :
    (∀ l1 l2 : List CreateCall, calls = l1 ++ l2 →
      (runCreates maxS l1).sessions.length ≤ maxS) ∧
    (∀ (l1 : List CreateCall) (c : CreateCall) (l2 : List CreateCall),
      calls = l1 ++ c :: l2 →
      maxS ≤ (runCreates maxS l1).sessions.length →
      ∃ v tv,
        (v, tv) ∈ (runCreates maxS l1).lastActivity ∧
        (∀ p ∈ (runCreates maxS l1).lastActivity, tv ≤ p.2) ∧
        runCreates maxS (l1 ++ [c]) =
          (createSessionCore (callTime c) (callInit c)
            (destroySessionState (runCreates maxS l1) v) (callId c)).1 ∧
        (destroySessionState (runCreates maxS l1) v).sessions.length + 1 =
          (runCreates maxS l1).sessions.length) := by
  constructor
  · intro l1 l2 hsplit
    have hp1 : (l1.map callTime).Pairwise (· < ·) := by
      rw [hsplit, List.map_append, List.pairwise_append] at hmono
      exact hmono.1
    exact (runCreates_inv maxS hmax l1 hp1).2.1
  · intro l1 c l2 hsplit hcap
    have hmono' := hmono
    rw [hsplit, List.map_append, List.pairwise_append] at hmono'
    obtain ⟨hp1, hp2, hp3⟩ := hmono'
    obtain ⟨hwf, hlen, hacts⟩ := runCreates_inv maxS hmax l1 hp1
    have hall : ∀ p ∈ (runCreates maxS l1).lastActivity, p.2 < callTime c := by
      intro p hp
      exact hp3 p.2 (hacts p hp) (callTime c) (by simp)
    obtain ⟨v, tv, hmem, hmin, heq, hlen1⟩ :=
      createSession_at_capacity maxS (callTime c) (callInit c)
        (runCreates maxS l1) (callId c) hwf hcap hmax hall
    refine ⟨v, tv, hmem, hmin, ?_, hlen1⟩
    rw [runCreates_append_one]
    unfold stepCall
    rw [heq]

/-- Witness for the amended C1 at a concrete input: capacity 1, sessions
"a" (created at time 0) then "b" (created at time 1). -/
theorem createSession_capacity_invariant_witness :
    (1 ≤ 1 ∧ (c1WitnessCalls.map callTime).Pairwise (· < ·)) ∧
    ((∀ l1 l2 : List CreateCall, c1WitnessCalls = l1 ++ l2 →
        (runCreates 1 l1).sessions.length ≤ 1) ∧
      (∀ (l1 : List CreateCall) (c : CreateCall) (l2 : List CreateCall),
        c1WitnessCalls = l1 ++ c :: l2 →
        1 ≤ (runCreates 1 l1).sessions.length →
        ∃ v tv,
          (v, tv) ∈ (runCreates 1 l1).lastActivity ∧
          (∀ p ∈ (runCreates 1 l1).lastActivity, tv ≤ p.2) ∧
          runCreates 1 (l1 ++ [c]) =
            (createSessionCore (callTime c) (callInit c)
              (destroySessionState (runCreates 1 l1) v) (callId c)).1 ∧
          (destroySessionState (runCreates 1 l1) v).sessions.length + 1 =
            (runCreates 1 l1).sessions.length)) :=
  ⟨⟨by decide, by decide⟩,
    createSession_capacity_invariant 1 (by decide) c1WitnessCalls (by decide)⟩

/-! ## Idempotent create on a live session (C4) -/

theorem createSessionCore_live (now : Nat) (initResult : Except String Unit)
    (s : SMState) (uid : String) (hdl : Nat) (st : String)
    (hs : alistGet s.sessions uid = some hdl)
    (hst : alistGet s.sessionStatus uid = some st)
    (hlive : liveStatuses.contains st = true) :
    createSessionCore now initResult s uid =
      (s, { success := true, status := st }) := by
  unfold createSessionCore
  rw [hs]
  dsimp only
  rw [hst]
  dsimp only
  rw [if_pos hlive]

/-- A session "a" created at time 0 and brought to `ready` at time 1,
under a capacity of 1. -/
def c4Ready : SMState :=
  handleEvent 1 ((createSession 1 0 (Except.ok ()) emptyState "a").1) "a"
    WEvent.readySignal

/-- Claim C4 is false as stated: with the registry at capacity
(`maxSessions = 1`) and "a" the least-recently-active (indeed only)
session, `createSession("a")` runs the eviction step BEFORE the
idempotent short-circuit, destroys the ready session "a" itself, and
recreates it — the call still reports success, but the client handle is
replaced (handle 0 becomes handle 1) and the session is recreated in
status `initializing`. -/
theorem c4_idempotent_create_counterexample :
    getSessionStatus c4Ready "a" = "ready" ∧
      alistGet c4Ready.sessions "a" = some 0 ∧
      (createSession 1 2 (Except.ok ()) c4Ready "a").2.success = true ∧
      alistGet (createSession 1 2 (Except.ok ()) c4Ready "a").1.sessions "a" =
        some 1 ∧
      alistGet (createSession 1 2 (Except.ok ()) c4Ready "a").1.sessions "a" ≠
        alistGet c4Ready.sessions "a" ∧
      getSessionStatus (createSession 1 2 (Except.ok ()) c4Ready "a").1 "a" =
        "initializing" := by
  decide

/-- Claim C4 (amended): calling `createSession(id)` while `id` has a
non-terminal status (`ready`, `initializing`, `needs_scan`,
`authenticated`) returns success immediately with that status, without
replacing the client handle and without recreating the session —
PROVIDED `id` is not selected as the eviction victim during the call
(the registry is below capacity, or the LRU scan picks another session).
-/
theorem createSession_live_short_circuit (maxS now : Nat)
    (initResult : Except String Unit) (s : SMState) (uid : String)
    (hdl : Nat) (st : String)
    (hs : alistGet s.sessions uid = some hdl)
    (hst : alistGet s.sessionStatus uid = some st)
    (hlive : liveStatuses.contains st = true)
    (hevict : maxS ≤ s.sessions.length →
      getOldestSession now s.lastActivity ≠ some uid) :
    (createSession maxS now initResult s uid).2.success = true ∧
    (createSession maxS now initResult s uid).2.status = st ∧
    alistGet (createSession maxS now initResult s uid).1.sessions uid =
      some hdl ∧
    alistGet (createSession maxS now initResult s uid).1.sessionStatus uid =
      some st ∧
    alistGet (createSession maxS now initResult s uid).1.lastActivity uid =
      alistGet s.lastActivity uid ∧
    alistGet (createSession maxS now initResult s uid).1.qrCodes uid =
      alistGet s.qrCodes uid := by
  by_cases hcap : maxS ≤ s.sessions.length
  · rcases hold : getOldestSession now s.lastActivity with _ | v
    · have heq : createSession maxS now initResult s uid =
          createSessionCore now initResult s uid := by
        unfold createSession
        rw [if_pos hcap, hold]
      rw [heq, createSessionCore_live now initResult s uid hdl st hs hst hlive]
      exact ⟨rfl, rfl, hs, hst, rfl, rfl⟩
    · have hvne : v ≠ uid := by
        intro h
        exact (hevict hcap) (by rw [hold, h])
      have huidne : uid ≠ v := Ne.symm hvne
      have heq : createSession maxS now initResult s uid =
          createSessionCore now initResult (destroySessionState s v) uid := by
        unfold createSession
        rw [if_pos hcap, hold]
      have hs' : alistGet (destroySessionState s v).sessions uid = some hdl := by
        show alistGet (alistErase s.sessions v) uid = some hdl
        rw [alistGet_erase_ne _ _ _ huidne]
        exact hs
      have hst' : alistGet (destroySessionState s v).sessionStatus uid =
          some st := by
        show alistGet (alistErase s.sessionStatus v) uid = some st
        rw [alistGet_erase_ne _ _ _ huidne]
        exact hst
      rw [heq, createSessionCore_live now initResult
        (destroySessionState s v) uid hdl st hs' hst' hlive]
      refine ⟨rfl, rfl, hs', hst', ?_, ?_⟩
      · show alistGet (alistErase s.lastActivity v) uid = _
        rw [alistGet_erase_ne _ _ _ huidne]
      · show alistGet (alistErase s.qrCodes v) uid = _
        rw [alistGet_erase_ne _ _ _ huidne]
  · have heq : createSession maxS now initResult s uid =
        createSessionCore now initResult s uid := by
      unfold createSession
      rw [if_neg hcap]
    rw [heq, createSessionCore_live now initResult s uid hdl st hs hst hlive]
    exact ⟨rfl, rfl, hs, hst, rfl, rfl⟩

/-- Witness for the amended C4: registry of capacity 5 holding the single
ready session "a"; `createSession("a")` at time 2 short-circuits and the
handle survives. -/
theorem createSession_live_short_circuit_witness :
    (alistGet c4Ready.sessions "a" = some 0 ∧
      alistGet c4Ready.sessionStatus "a" = some "ready" ∧
      liveStatuses.contains "ready" = true ∧
      (5 ≤ c4Ready.sessions.length →
        getOldestSession 2 c4Ready.lastActivity ≠ some "a")) ∧
    ((createSession 5 2 (Except.ok ()) c4Ready "a").2.success = true ∧
      (createSession 5 2 (Except.ok ()) c4Ready "a").2.status = "ready" ∧
      alistGet (createSession 5 2 (Except.ok ()) c4Ready "a").1.sessions "a" =
        some 0 ∧
      alistGet (createSession 5 2 (Except.ok ()) c4Ready "a").1.sessionStatus
        "a" = some "ready" ∧
      alistGet (createSession 5 2 (Except.ok ()) c4Ready "a").1.lastActivity
        "a" = alistGet c4Ready.lastActivity "a" ∧
      alistGet (createSession 5 2 (Except.ok ()) c4Ready "a").1.qrCodes "a" =
        alistGet c4Ready.qrCodes "a") :=
  ⟨⟨by decide, by decide, by decide, by decide⟩,
    createSession_live_short_circuit 5 2 (Except.ok ()) c4Ready "a" 0 "ready"
      (by decide) (by decide) (by decide) (by decide)⟩

/-! ## Lock coordinator (C5) -/

/-- Claim C5: `acquireLock` is non-blocking — it returns `false` and
leaves the state untouched when a token exists, otherwise stores the
acquisition time and returns `true`; two acquisitions without a release
yield `true` then `false`, `releaseLock` removes the token
unconditionally and idempotently, and an acquisition after a release
succeeds again. -/
theorem lock_exclusivity (s sHeld : SMState) (uid : String) (n1 n2 n3 : Nat)
    (hfree : alistGet s.sessionLocks uid = none)
    (hheld : (alistGet sHeld.sessionLocks uid).isSome = true) :
    acquireLock n1 sHeld uid = (false, sHeld) ∧
    (acquireLock n1 s uid).1 = true ∧
    alistGet (acquireLock n1 s uid).2.sessionLocks uid = some n1 ∧
    (acquireLock n2 (acquireLock n1 s uid).2 uid).1 = false ∧
    (acquireLock n2 (acquireLock n1 s uid).2 uid).2 = (acquireLock n1 s uid).2 ∧
    alistGet (releaseLock (acquireLock n1 s uid).2 uid).sessionLocks uid =
      none ∧
    (acquireLock n3 (releaseLock (acquireLock n1 s uid).2 uid) uid).1 = true ∧
    releaseLock (releaseLock sHeld uid) uid = releaseLock sHeld uid := by
  have hofree : ∀ (n : Nat) (st : SMState),
      alistGet st.sessionLocks uid = none →
      acquireLock n st uid =
        (true, { st with sessionLocks := alistSet st.sessionLocks uid n }) := by
    intro n st h
    unfold acquireLock
    rw [if_neg (by rw [h]; simp)]
  have hoheld : ∀ (n : Nat) (st : SMState),
      (alistGet st.sessionLocks uid).isSome = true →
      acquireLock n st uid = (false, st) := by
    intro n st h
    unfold acquireLock
    rw [if_pos h]
  have hgot : alistGet (acquireLock n1 s uid).2.sessionLocks uid = some n1 := by
    rw [hofree n1 s hfree]
    exact alistGet_set_self _ _ _
  refine ⟨hoheld n1 sHeld hheld, ?_, hgot, ?_, ?_, ?_, ?_, ?_⟩
  · rw [hofree n1 s hfree]
  · rw [hoheld n2 _ (by rw [hgot]; rfl)]
  · rw [hoheld n2 _ (by rw [hgot]; rfl)]
  · exact alistGet_erase_self _ _
  · rw [hofree n3 _ (alistGet_erase_self _ _)]
  · simp only [releaseLock, alistErase_idem]

/-- Witness for C5: fresh manager (no lock for "x") and a manager that
holds a lock for "x". -/
theorem lock_exclusivity_witness :
    (alistGet emptyState.sessionLocks "x" = none ∧
      (alistGet (acquireLock 7 emptyState "x").2.sessionLocks "x").isSome =
        true) ∧
    (acquireLock 1 (acquireLock 7 emptyState "x").2 "x" =
        (false, (acquireLock 7 emptyState "x").2) ∧
      (acquireLock 1 emptyState "x").1 = true ∧
      alistGet (acquireLock 1 emptyState "x").2.sessionLocks "x" = some 1 ∧
      (acquireLock 2 (acquireLock 1 emptyState "x").2 "x").1 = false ∧
      (acquireLock 2 (acquireLock 1 emptyState "x").2 "x").2 =
        (acquireLock 1 emptyState "x").2 ∧
      alistGet (releaseLock (acquireLock 1 emptyState "x").2
        "x").sessionLocks "x" = none ∧
      (acquireLock 3 (releaseLock (acquireLock 1 emptyState "x").2 "x")
        "x").1 = true ∧
      releaseLock (releaseLock (acquireLock 7 emptyState "x").2 "x") "x" =
        releaseLock (acquireLock 7 emptyState "x").2 "x") :=
  ⟨⟨by decide, by decide⟩,
    lock_exclusivity emptyState (acquireLock 7 emptyState "x").2 "x" 1 2 3
      (by decide) (by decide)⟩

/-! ## Event handlers: activity stamping and destroy-on-failure (C7) -/

/-- A session "a" created at time 5 (capacity 50). -/
def c7State : SMState := (createSession 50 5 (Except.ok ()) emptyState "a").1

/-- Claim C7 is false as stated: the `auth_failure` handler does NOT
update `lastActivity` — it only sets the status and calls
`destroySession`, which purges the `lastActivity` entry.  Concretely, the
session "a" enters the `auth_failure` transition at time 10 with
`lastActivity = 5`, and afterwards its `lastActivity` is absent rather
than updated to 10 (the `disconnected` handler behaves identically). -/
theorem c7_activity_on_failure_counterexample :
    alistGet c7State.lastActivity "a" = some 5 ∧
      alistGet (handleEvent 10 c7State "a"
        WEvent.authFailureSignal).lastActivity "a" = none ∧
      alistGet (handleEvent 10 c7State "a"
        WEvent.authFailureSignal).lastActivity "a" ≠ some 10 ∧
      alistGet (handleEvent 10 c7State "a"
        WEvent.disconnectedSignal).lastActivity "a" = none := by
  decide

/-- Claim C7 (amended): the `qr`, `ready` and `authenticated` transitions
each stamp `lastActivity` with the current time (and set the advertised
status/QR payload); the transitions into `auth_failure` and
`disconnected` do NOT update `lastActivity` — instead each triggers an
immediate `destroySession`, after which every record of the session
(status, QR, activity, lock, client handle) is purged and the reported
status is `no_session`. -/
theorem handleEvent_activity_and_destroy (now : Nat) (s : SMState)
    (uid : String) (payload : String) :
    (alistGet (handleEvent now s uid (WEvent.qrSignal payload)).lastActivity
        uid = some now ∧
      alistGet (handleEvent now s uid (WEvent.qrSignal payload)).sessionStatus
        uid = some "needs_scan" ∧
      alistGet (handleEvent now s uid (WEvent.qrSignal payload)).qrCodes uid =
        some (some payload)) ∧
    (alistGet (handleEvent now s uid WEvent.readySignal).lastActivity uid =
        some now ∧
      alistGet (handleEvent now s uid WEvent.readySignal).sessionStatus uid =
        some "ready" ∧
      alistGet (handleEvent now s uid WEvent.readySignal).qrCodes uid =
        some none) ∧
    (alistGet (handleEvent now s uid WEvent.authenticatedSignal).lastActivity
        uid = some now ∧
      alistGet (handleEvent now s uid
        WEvent.authenticatedSignal).sessionStatus uid = some "authenticated" ∧
      alistGet (handleEvent now s uid WEvent.authenticatedSignal).qrCodes uid =
        some none) ∧
    (handleEvent now s uid WEvent.authFailureSignal =
        destroySessionState
          { s with sessionStatus := alistSet s.sessionStatus uid "auth_failure" }
          uid ∧
      alistGet (handleEvent now s uid WEvent.authFailureSignal).sessions uid =
        none ∧
      alistGet (handleEvent now s uid
        WEvent.authFailureSignal).lastActivity uid = none ∧
      alistGet (handleEvent now s uid
        WEvent.authFailureSignal).sessionLocks uid = none ∧
      getSessionStatus (handleEvent now s uid WEvent.authFailureSignal) uid =
        "no_session") ∧
    (handleEvent now s uid WEvent.disconnectedSignal =
        destroySessionState
          { s with sessionStatus := alistSet s.sessionStatus uid "disconnected" }
          uid ∧
      alistGet (handleEvent now s uid WEvent.disconnectedSignal).sessions uid =
        none ∧
      alistGet (handleEvent now s uid
        WEvent.disconnectedSignal).lastActivity uid = none ∧
      alistGet (handleEvent now s uid
        WEvent.disconnectedSignal).sessionLocks uid = none ∧
      getSessionStatus (handleEvent now s uid WEvent.disconnectedSignal) uid =
        "no_session") := by
  refine ⟨⟨?_, ?_, ?_⟩, ⟨?_, ?_, ?_⟩, ⟨?_, ?_, ?_⟩,
    ⟨rfl, ?_, ?_, ?_, ?_⟩, ⟨rfl, ?_, ?_, ?_, ?_⟩⟩
  · exact alistGet_set_self _ _ _
  · exact alistGet_set_self _ _ _
  · exact alistGet_set_self _ _ _
  · exact alistGet_set_self _ _ _
  · exact alistGet_set_self _ _ _
  · exact alistGet_set_self _ _ _
  · exact alistGet_set_self _ _ _
  · exact alistGet_set_self _ _ _
  · exact alistGet_set_self _ _ _
  · exact alistGet_erase_self _ _
  · exact alistGet_erase_self _ _
  · exact alistGet_erase_self _ _
  · show jsFalsyOr (alistGet (alistErase _ uid) uid) "no_session" = _
    rw [alistGet_erase_self]
    rfl
  · exact alistGet_erase_self _ _
  · exact alistGet_erase_self _ _
  · exact alistGet_erase_self _ _
  · show jsFalsyOr (alistGet (alistErase _ uid) uid) "no_session" = _
    rw [alistGet_erase_self]
    rfl

/-! ## Idempotent destroy (C9) -/

theorem destroyState_idem (s : SMState) (uid : String) :
    destroySessionState (destroySessionState s uid) uid =
      destroySessionState s uid := by
  simp only [destroySessionState, alistErase_idem]

theorem destroySessionRun_no_client (e1 e2 : Option String) (s : SMState)
    (uid : String) (h : alistGet s.sessions uid = none) :
    destroySessionRun e1 e2 s uid = (destroySessionState s uid, []) := by
  unfold destroySessionRun
  rw [h]

/-- Claim C9: `destroySession(id)` is idempotent — after one call the
session, QR, activity and lock records for `id` are purged and
`getSessionStatus` reports `no_session`; a second call leaves the state
identical and makes no further client calls (no `logout`, no `destroy`);
on an id with no records at all the call is a state-level no-op emitting
no client calls.  The teardown-error oracles (`e1`–`e4`, the outcomes of
`client.logout()`/`client.destroy()`) never influence the resulting
state, mirroring the `try`/`catch` blocks in the source. -/
theorem destroySession_idempotent (s : SMState) (uid : String)
    (e1 e2 e3 e4 : Option String) :
    (destroySessionRun e3 e4 (destroySessionRun e1 e2 s uid).1 uid).1 =
      (destroySessionRun e1 e2 s uid).1 ∧
    (destroySessionRun e3 e4 (destroySessionRun e1 e2 s uid).1 uid).2 = [] ∧
    getSessionStatus (destroySessionRun e1 e2 s uid).1 uid = "no_session" ∧
    alistGet (destroySessionRun e1 e2 s uid).1.sessions uid = none ∧
    alistGet (destroySessionRun e1 e2 s uid).1.qrCodes uid = none ∧
    alistGet (destroySessionRun e1 e2 s uid).1.lastActivity uid = none ∧
    alistGet (destroySessionRun e1 e2 s uid).1.sessionLocks uid = none ∧
    ((alistGet s.sessions uid = none ∧ alistGet s.qrCodes uid = none ∧
        alistGet s.sessionStatus uid = none ∧
        alistGet s.lastActivity uid = none ∧
        alistGet s.sessionLocks uid = none) →
      (destroySessionRun e1 e2 s uid).1 = s ∧
        (destroySessionRun e1 e2 s uid).2 = []) := by
  have h1 : (destroySessionRun e1 e2 s uid).1 = destroySessionState s uid :=
    destroySessionRun_fst e1 e2 s uid
  have hgone : alistGet (destroySessionRun e1 e2 s uid).1.sessions uid =
      none := by
    rw [h1]
    exact alistGet_erase_self _ _
  refine ⟨?_, ?_, ?_, hgone, ?_, ?_, ?_, ?_⟩
  · rw [destroySessionRun_fst, h1, destroyState_idem]
  · rw [destroySessionRun_no_client e3 e4 _ uid hgone]
  · rw [h1]
    show jsFalsyOr (alistGet (alistErase _ uid) uid) "no_session" = _
    rw [alistGet_erase_self]
    rfl
  · rw [h1]; exact alistGet_erase_self _ _
  · rw [h1]; exact alistGet_erase_self _ _
  · rw [h1]; exact alistGet_erase_self _ _
  · intro ⟨ha, hb, hc, hd, he⟩
    constructor
    · rw [h1]
      show ({ s with
        sessions := alistErase s.sessions uid,
        qrCodes := alistErase s.qrCodes uid,
        sessionStatus := alistErase s.sessionStatus uid,
        lastActivity := alistErase s.lastActivity uid,
        sessionLocks := alistErase s.sessionLocks uid } : SMState) = s
      rw [alistErase_of_not_mem _ _ ha, alistErase_of_not_mem _ _ hb,
        alistErase_of_not_mem _ _ hc, alistErase_of_not_mem _ _ hd,
        alistErase_of_not_mem _ _ he]
    · rw [destroySessionRun_no_client e1 e2 s uid ha]

/-- Witness for C9: destroying the live session "a" of `c7State` twice,
with teardown errors injected on both calls. -/
theorem destroySession_idempotent_witness :
    (destroySessionRun (some "boom") (some "crash")
        (destroySessionRun (some "x") none c7State "a").1 "a").1 =
      (destroySessionRun (some "x") none c7State "a").1 ∧
    (destroySessionRun (some "boom") (some "crash")
        (destroySessionRun (some "x") none c7State "a").1 "a").2 = [] ∧
    getSessionStatus (destroySessionRun (some "x") none c7State "a").1 "a" =
      "no_session" ∧
    alistGet (destroySessionRun (some "x") none c7State "a").1.sessions "a" =
      none ∧
    alistGet (destroySessionRun (some "x") none c7State "a").1.qrCodes "a" =
      none ∧
    alistGet (destroySessionRun (some "x") none c7State "a").1.lastActivity
      "a" = none ∧
    alistGet (destroySessionRun (some "x") none c7State "a").1.sessionLocks
      "a" = none ∧
    ((alistGet c7State.sessions "a" = none ∧
        alistGet c7State.qrCodes "a" = none ∧
        alistGet c7State.sessionStatus "a" = none ∧
        alistGet c7State.lastActivity "a" = none ∧
        alistGet c7State.sessionLocks "a" = none) →
      (destroySessionRun (some "x") none c7State "a").1 = c7State ∧
        (destroySessionRun (some "x") none c7State "a").2 = []) :=
  destroySession_idempotent c7State "a" (some "x") none (some "boom")
    (some "crash")

/-! ## Cleanup sweep (C8) -/

theorem foldl_destroyRun_eq_foldl_destroyState
    (errs : String → Option String × Option String) (ids : List String) :
    ∀ s : SMState,
      ids.foldl
        (fun st u => (destroySessionRun (errs u).1 (errs u).2 st u).1) s =
      ids.foldl (fun st u => destroySessionState st u) s := by
  induction ids with
  | nil => intro s; rfl
  | cons v rest ih =>
    intro s
    show rest.foldl _ (destroySessionRun (errs v).1 (errs v).2 s v).1 = _
    rw [destroySessionRun_fst]
    exact ih _

theorem foldl_destroy_preserves_none (ids : List String) :
    ∀ (s : SMState) (uid : String),
      alistGet s.sessions uid = none →
      alistGet s.lastActivity uid = none →
      alistGet s.sessionStatus uid = none →
      alistGet (ids.foldl (fun st u => destroySessionState st u) s).sessions
          uid = none ∧
        alistGet (ids.foldl (fun st u => destroySessionState st u)
          s).lastActivity uid = none ∧
        alistGet (ids.foldl (fun st u => destroySessionState st u)
          s).sessionStatus uid = none := by
  induction ids with
  | nil => intro s uid h1 h2 h3; exact ⟨h1, h2, h3⟩
  | cons v rest ih =>
    intro s uid h1 h2 h3
    exact ih (destroySessionState s v) uid
      (alistGet_none_of_erased _ _ _ h1)
      (alistGet_none_of_erased _ _ _ h2)
      (alistGet_none_of_erased _ _ _ h3)

theorem foldl_destroy_purges (ids : List String) :
    ∀ (s : SMState) (uid : String), uid ∈ ids →
      alistGet (ids.foldl (fun st u => destroySessionState st u) s).sessions
          uid = none ∧
        alistGet (ids.foldl (fun st u => destroySessionState st u)
          s).lastActivity uid = none ∧
        alistGet (ids.foldl (fun st u => destroySessionState st u)
          s).sessionStatus uid = none := by
  induction ids with
  | nil => intro s uid h; simp at h
  | cons v rest ih =>
    intro s uid hmem
    by_cases hv : uid = v
    · subst hv
      show alistGet (rest.foldl _ (destroySessionState s uid)).sessions uid =
          none ∧ _
      exact foldl_destroy_preserves_none rest (destroySessionState s uid) uid
        (alistGet_erase_self _ _) (alistGet_erase_self _ _)
        (alistGet_erase_self _ _)
    · have : uid ∈ rest := by
        rcases List.mem_cons.mp hmem with h | h
        · exact absurd h hv
        · exact h
      exact ih (destroySessionState s v) uid this

/-- Claim C8: a cleanup tick destroys every tracked session whose idle
time strictly exceeds the timeout, and the teardown-error oracles (the
only errors a `destroySession` can encounter, each caught inside it)
never change the outcome — the sweep is insensitive to any session's
teardown failing, so the remaining idle sessions are still evaluated and
destroyed in the same tick. -/
theorem cleanup_destroys_idle (now timeoutMs : Nat)
    (errs errsAlt : String → Option String × Option String) (s : SMState)
    (uid : String) (t : Nat)
    (hmem : (uid, t) ∈ s.lastActivity) (hidle : timeoutMs < now - t) :
    cleanupInactiveSessions now timeoutMs errs s =
      cleanupInactiveSessions now timeoutMs errsAlt s ∧
    alistGet (cleanupInactiveSessions now timeoutMs errs s).sessions uid =
      none ∧
    alistGet (cleanupInactiveSessions now timeoutMs errs s).lastActivity uid =
      none ∧
    getSessionStatus (cleanupInactiveSessions now timeoutMs errs s) uid =
      "no_session" := by
  have heq : ∀ e : String → Option String × Option String,
      cleanupInactiveSessions now timeoutMs e s =
        ((s.lastActivity.filter (fun p => decide (timeoutMs < now - p.2))).map
          Prod.fst).foldl (fun st u => destroySessionState st u) s := by
    intro e
    unfold cleanupInactiveSessions
    exact foldl_destroyRun_eq_foldl_destroyState e _ s
  have huid : uid ∈ (s.lastActivity.filter
      (fun p => decide (timeoutMs < now - p.2))).map Prod.fst := by
    rw [List.mem_map]
    refine ⟨(uid, t), ?_, rfl⟩
    rw [List.mem_filter]
    exact ⟨hmem, by simpa using hidle⟩
  obtain ⟨h1, h2, h3⟩ := foldl_destroy_purges _ s uid huid
  refine ⟨by rw [heq errs, heq errsAlt], ?_, ?_, ?_⟩
  · rw [heq errs]; exact h1
  · rw [heq errs]; exact h2
  · rw [heq errs]
    show jsFalsyOr _ "no_session" = _
    rw [h3]
    rfl

/-- Witness for C8: `c7State` tracks session "a" with `lastActivity = 5`;
a tick at `now = 100` with a 10ms timeout destroys it, with teardown
errors injected under one oracle and not the other. -/
theorem cleanup_destroys_idle_witness :
    (("a", 5) ∈ c7State.lastActivity ∧ 10 < 100 - 5) ∧
    (cleanupInactiveSessions 100 10 (fun _ => (some "boom", some "crash"))
        c7State =
      cleanupInactiveSessions 100 10 (fun _ => (none, none)) c7State ∧
    alistGet (cleanupInactiveSessions 100 10
      (fun _ => (some "boom", some "crash")) c7State).sessions "a" = none ∧
    alistGet (cleanupInactiveSessions 100 10
      (fun _ => (some "boom", some "crash")) c7State).lastActivity "a" =
      none ∧
    getSessionStatus (cleanupInactiveSessions 100 10
      (fun _ => (some "boom", some "crash")) c7State) "a" = "no_session") :=
  ⟨⟨by decide, by decide⟩,
    cleanup_destroys_idle 100 10 (fun _ => (some "boom", some "crash"))
      (fun _ => (none, none)) c7State "a" 5 (by decide) (by decide)⟩

/-! ## Recipient normalization (`src/index.js`, lines 462–470) -/

/-- `originalNumber.replace(/\D/g, '')`. -/
def stripNonDigits (s : String) : String := String.mk (s.data.filter Char.isDigit)

/-- `originalNumber.includes('+')` (for a single character). -/
def strContainsChar (s : String) (c : Char) : Bool := s.data.contains c

/-- `numberOnly.startsWith('591')`. -/
def startsWith591 (s : String) : Bool := s.data.take 3 == ['5', '9', '1']

/-- The normalization in the send loop:
`let numberOnly = originalNumber.replace(/\D/g, '');` then prepend `'591'`
when the original has no `'+'`, the digits are exactly 8, and they do not
already start with `'591'`; when the original contains `'+'`, strip to
digits again (no prefixing). -/
def normalizeNumber (original : String) : String :=
  let numberOnly := stripNonDigits original
  if !strContainsChar original '+' && decide (numberOnly.length = 8)
      && !startsWith591 numberOnly then
    "591" ++ numberOnly
  else if strContainsChar original '+' then
    stripNonDigits original
  else
    numberOnly

theorem string_data_append (a b : String) : (a ++ b).data = a.data ++ b.data :=
  rfl

/-- Claim C6: normalization strips all non-digit characters; with no `'+'`
in the original, exactly 8 stripped digits, and no existing `591` prefix,
the default prefix `591` is prepended; with a `'+'` in the original the
result is the stripped digits with no prefix injected; in every other
case the result is just the stripped digits. -/
theorem normalizeNumber_spec (s : String) :
    ((normalizeNumber s).data.all Char.isDigit = true) ∧
    (strContainsChar s '+' = false →
      (stripNonDigits s).length = 8 →
      startsWith591 (stripNonDigits s) = false →
      normalizeNumber s = "591" ++ stripNonDigits s) ∧
    (strContainsChar s '+' = true → normalizeNumber s = stripNonDigits s) ∧
    (strContainsChar s '+' = false →
      ((stripNonDigits s).length ≠ 8 ∨
        startsWith591 (stripNonDigits s) = true) →
      normalizeNumber s = stripNonDigits s) := by
  have hdig : ∀ t : String, (stripNonDigits t).data.all Char.isDigit = true := by
    intro t
    rw [List.all_eq_true]
    intro a ha
    exact (List.mem_filter.mp (by simpa [stripNonDigits] using ha)).2
  refine ⟨?_, ?_, ?_, ?_⟩
  · by_cases hc : (!strContainsChar s '+' &&
        decide ((stripNonDigits s).length = 8) &&
        !startsWith591 (stripNonDigits s)) = true
    · simp only [normalizeNumber]
      rw [if_pos hc, string_data_append, List.all_append]
      refine (Bool.and_eq_true _ _).mpr ⟨by decide, hdig s⟩
    · simp only [normalizeNumber]
      rw [if_neg hc]
      split
      · exact hdig s
      · exact hdig s
  · intro h1 h2 h3
    simp only [normalizeNumber]
    rw [if_pos (by simp [h1, h2, h3])]
  · intro h1
    simp only [normalizeNumber]
    rw [if_neg (by simp [h1]), if_pos h1]
  · intro h1 h2
    simp only [normalizeNumber]
    rcases h2 with h2 | h2
    · rw [if_neg (by simp [h2]), if_neg (by simp [h1])]
    · rw [if_neg (by simp [h2]), if_neg (by simp [h1])]

/-- Witness for C6: `"71234567"` (8 local digits) gains the prefix;
`"+59171234567"` is reduced to digits with no prefix injected;
`"12-34"` (4 digits, no `'+'`) stays bare digits. -/
theorem normalizeNumber_spec_witness :
    (strContainsChar "71234567" '+' = false ∧
      (stripNonDigits "71234567").length = 8 ∧
      startsWith591 (stripNonDigits "71234567") = false ∧
      normalizeNumber "71234567" = "591" ++ stripNonDigits "71234567" ∧
      normalizeNumber "71234567" = "59171234567") ∧
    (strContainsChar "+59171234567" '+' = true ∧
      normalizeNumber "+59171234567" = stripNonDigits "+59171234567" ∧
      normalizeNumber "+59171234567" = "59171234567") ∧
    (strContainsChar "12-34" '+' = false ∧
      (stripNonDigits "12-34").length ≠ 8 ∧
      normalizeNumber "12-34" = "1234") :=
  ⟨⟨by decide, by decide, by decide,
      (normalizeNumber_spec "71234567").2.1 (by decide) (by decide) (by decide),
      by decide⟩,
    ⟨by decide, (normalizeNumber_spec "+59171234567").2.2.1 (by decide),
      by decide⟩,
    ⟨by decide, by decide, by decide⟩⟩

/-! ## The background dispatch loop (`src/index.js`, lines 457–525)

Per-recipient oracles: `getNumberId` resolves a normalized number to a
routable chat id (or `none`, or throws); `sendMessage` for media and text
payloads may throw.  The loop body is embedded verbatim: resolve, then
(media send | non-empty text send | nothing), one counter incremented per
recipient, per-recipient errors caught and recorded. -/

structure ClientEnv where
  getNumberId : String → Except String (Option String)
  sendMediaMsg : String → Option String → Except String Unit
  sendTextMsg : String → String → Except String Unit

inductive SendAction where
  | resolveCall (number : String)
  | sendMediaCall (chatId : String) (caption : Option String)
  | sendTextCall (chatId : String) (message : String)
deriving Repr, DecidableEq

/-- The failure reason for a recipient whose resolution yields no routable
id — the source's rendering of the spec's "not a valid recipient"
reason. -/
def notValidReason : String := "Not a valid WhatsApp number"

/-- `err.message || 'Send failed'`. -/
def jsReason (e : String) : String := if e = "" then "Send failed" else e

/-- One iteration of the send loop (lines 462–496), minus the inter-message
delay: returns (counted-as-sent?, failure record, client calls made). -/
def processRecipient (env : ClientEnv) (hasMedia : Bool)
    (originalNumber currentMessage : String) :
    Bool × Option (String × String) × List SendAction :=
  let numberOnly := normalizeNumber originalNumber
  match env.getNumberId numberOnly with
  | .error e =>
    (false, some (originalNumber, jsReason e), [SendAction.resolveCall numberOnly])
  | .ok none =>
    (false, some (originalNumber, notValidReason), [SendAction.resolveCall numberOnly])
  | .ok (some chatId) =>
    if hasMedia then
      let caption := if currentMessage = "" then none else some currentMessage
      match env.sendMediaMsg chatId caption with
      | .ok _ =>
        (true, none,
          [SendAction.resolveCall numberOnly, SendAction.sendMediaCall chatId caption])
      | .error e =>
        (false, some (originalNumber, jsReason e),
          [SendAction.resolveCall numberOnly, SendAction.sendMediaCall chatId caption])
    else if currentMessage ≠ "" then
      match env.sendTextMsg chatId currentMessage with
      | .ok _ =>
        (true, none,
          [SendAction.resolveCall numberOnly,
            SendAction.sendTextCall chatId currentMessage])
      | .error e =>
        (false, some (originalNumber, jsReason e),
          [SendAction.resolveCall numberOnly,
            SendAction.sendTextCall chatId currentMessage])
    else
      (true, none, [SendAction.resolveCall numberOnly])

structure DispatchResult where
  enviados : Nat
  fallidos : Nat
  failedNumbers : List (String × String)
  actions : List SendAction
deriving Repr, DecidableEq

/-- `mensajesPorNumero[i] || message || ""` as evaluated inside the loop. -/
def currentMessageAt (msgs : List String) (message : Option String)
    (i : Nat) : String :=
  jsFalsyOr (msgs.get? i) (jsFalsyOr message "")

/-- The loop over the remaining recipients.  `abortAt = some k` models a
catastrophic exception thrown outside the per-recipient `try` scope when
the loop reaches recipient `k` (per-recipient errors never abort — they
are caught inside the loop body). -/
def dispatchGo (env : Nat → ClientEnv) (hasMedia : Bool)
    (message : Option String) (msgs : List String) (abortAt : Option Nat) :
    List String → Nat → DispatchResult → DispatchResult
  | [], _, acc => acc
  | orig :: rest, i, acc =>
    if abortAt = some i then acc
    else
      let cm := currentMessageAt msgs message i
      let r := processRecipient (env i) hasMedia orig cm
      dispatchGo env hasMedia message msgs abortAt rest (i + 1)
        { enviados := acc.enviados + (if r.1 then 1 else 0),
          fallidos := acc.fallidos + (if r.1 then 0 else 1),
          failedNumbers := acc.failedNumbers ++ r.2.1.toList,
          actions := acc.actions ++ r.2.2 }

/-- The whole background loop over `numbersRaw`. -/
def runDispatch (abortAt : Option Nat) (env : Nat → ClientEnv)
    (hasMedia : Bool) (message : Option String) (numbers msgs : List String) :
    DispatchResult :=
  dispatchGo env hasMedia message msgs abortAt numbers 0
    { enviados := 0, fallidos := 0, failedNumbers := [], actions := [] }

theorem processRecipient_resolve_mem (env : ClientEnv) (hasMedia : Bool)
    (orig cm : String) :
    SendAction.resolveCall (normalizeNumber orig) ∈
      (processRecipient env hasMedia orig cm).2.2 := by
  rcases h : env.getNumberId (normalizeNumber orig) with e | o
  · simp [processRecipient, h]
  · rcases o with _ | cid
    · simp [processRecipient, h]
    · rcases hasMedia with _ | _
      · by_cases hcm : cm = ""
        · simp [processRecipient, h, hcm]
        · rcases hsend : env.sendTextMsg cid cm with e | u <;>
            simp [processRecipient, h, hcm, hsend]
      · rcases hsend : env.sendMediaMsg cid
          (if cm = "" then none else some cm) with e | u <;>
          simp [processRecipient, h, hsend]

theorem processRecipient_resolve_none (env : ClientEnv) (hasMedia : Bool)
    (orig cm : String)
    (h : env.getNumberId (normalizeNumber orig) = Except.ok none) :
    (processRecipient env hasMedia orig cm).1 = false ∧
      (processRecipient env hasMedia orig cm).2.1 =
        some (orig, notValidReason) := by
  simp [processRecipient, h]

theorem processRecipient_silent_success (env : ClientEnv) (orig : String)
    (cid : String)
    (h : env.getNumberId (normalizeNumber orig) = Except.ok (some cid)) :
    processRecipient env false orig "" =
      (true, none, [SendAction.resolveCall (normalizeNumber orig)]) := by
  simp [processRecipient, h]

theorem dispatchGo_nil (env : Nat → ClientEnv) (hasMedia : Bool)
    (message : Option String) (msgs : List String) (abortAt : Option Nat)
    (i : Nat) (acc : DispatchResult) :
    dispatchGo env hasMedia message msgs abortAt [] i acc = acc := rfl

theorem dispatchGo_cons (env : Nat → ClientEnv) (hasMedia : Bool)
    (message : Option String) (msgs : List String) (abortAt : Option Nat)
    (orig : String) (rest : List String) (i : Nat) (acc : DispatchResult) :
    dispatchGo env hasMedia message msgs abortAt (orig :: rest) i acc =
      if abortAt = some i then acc
      else
        dispatchGo env hasMedia message msgs abortAt rest (i + 1)
          { enviados := acc.enviados +
              (if (processRecipient (env i) hasMedia orig
                (currentMessageAt msgs message i)).1 then 1 else 0),
            fallidos := acc.fallidos +
              (if (processRecipient (env i) hasMedia orig
                (currentMessageAt msgs message i)).1 then 0 else 1),
            failedNumbers := acc.failedNumbers ++
              (processRecipient (env i) hasMedia orig
                (currentMessageAt msgs message i)).2.1.toList,
            actions := acc.actions ++
              (processRecipient (env i) hasMedia orig
                (currentMessageAt msgs message i)).2.2 } := rfl

theorem dispatchGo_mono (env : Nat → ClientEnv) (hasMedia : Bool)
    (message : Option String) (msgs : List String) (abortAt : Option Nat) :
    ∀ (l : List String) (i : Nat) (acc : DispatchResult),
      acc.enviados ≤
          (dispatchGo env hasMedia message msgs abortAt l i acc).enviados ∧
        (∀ x ∈ acc.failedNumbers,
          x ∈ (dispatchGo env hasMedia message msgs abortAt l i
            acc).failedNumbers) ∧
        (∀ a ∈ acc.actions,
          a ∈ (dispatchGo env hasMedia message msgs abortAt l i acc).actions) := by
  intro l
  induction l with
  | nil =>
    intro i acc
    exact ⟨Nat.le_refl _, fun x hx => hx, fun a ha => ha⟩
  | cons orig rest ih =>
    intro i acc
    rw [dispatchGo_cons]
    by_cases hab : abortAt = some i
    · rw [if_pos hab]
      exact ⟨Nat.le_refl _, fun x hx => hx, fun a ha => ha⟩
    · rw [if_neg hab]
      obtain ⟨m1, m2, m3⟩ := ih (i + 1)
        { enviados := acc.enviados +
            (if (processRecipient (env i) hasMedia orig
              (currentMessageAt msgs message i)).1 then 1 else 0),
          fallidos := acc.fallidos +
            (if (processRecipient (env i) hasMedia orig
              (currentMessageAt msgs message i)).1 then 0 else 1),
          failedNumbers := acc.failedNumbers ++
            (processRecipient (env i) hasMedia orig
              (currentMessageAt msgs message i)).2.1.toList,
          actions := acc.actions ++
            (processRecipient (env i) hasMedia orig
              (currentMessageAt msgs message i)).2.2 }
      refine ⟨?_, ?_, ?_⟩
      · exact Nat.le_trans (Nat.le_add_right _ _) m1
      · intro x hx
        exact m2 x (List.mem_append_left _ hx)
      · intro a ha
        exact m3 a (List.mem_append_left _ ha)

theorem dispatchGo_spec (env : Nat → ClientEnv) (hasMedia : Bool)
    (message : Option String) (msgs : List String) :
    ∀ (l : List String) (i : Nat) (acc : DispatchResult),
      ((dispatchGo env hasMedia message msgs none l i acc).enviados +
          (dispatchGo env hasMedia message msgs none l i acc).fallidos =
        acc.enviados + acc.fallidos + l.length) ∧
      (∀ (j : Nat) (orig : String), l.get? j = some orig →
        SendAction.resolveCall (normalizeNumber orig) ∈
          (dispatchGo env hasMedia message msgs none l i acc).actions) ∧
      (∀ (j : Nat) (orig : String) (f : String × String),
        l.get? j = some orig →
        (processRecipient (env (i + j)) hasMedia orig
          (currentMessageAt msgs message (i + j))).2.1 = some f →
        f ∈ (dispatchGo env hasMedia message msgs none l i
          acc).failedNumbers) ∧
      (∀ (j : Nat) (orig : String), l.get? j = some orig →
        (processRecipient (env (i + j)) hasMedia orig
          (currentMessageAt msgs message (i + j))).1 = true →
        acc.enviados + 1 ≤
          (dispatchGo env hasMedia message msgs none l i acc).enviados) := by
  intro l
  induction l with
  | nil =>
    intro i acc
    refine ⟨by rw [dispatchGo_nil]; simp, ?_, ?_, ?_⟩
    · intro j orig hj; simp at hj
    · intro j orig f hj; simp at hj
    · intro j orig hj; simp at hj
  | cons orig0 rest ih =>
    intro i acc
    rw [dispatchGo_cons]
    rw [if_neg (by simp)]
    obtain ⟨c1, c2, c3, c4⟩ := ih (i + 1)
      { enviados := acc.enviados +
          (if (processRecipient (env i) hasMedia orig0
            (currentMessageAt msgs message i)).1 then 1 else 0),
        fallidos := acc.fallidos +
          (if (processRecipient (env i) hasMedia orig0
            (currentMessageAt msgs message i)).1 then 0 else 1),
        failedNumbers := acc.failedNumbers ++
          (processRecipient (env i) hasMedia orig0
            (currentMessageAt msgs message i)).2.1.toList,
        actions := acc.actions ++
          (processRecipient (env i) hasMedia orig0
            (currentMessageAt msgs message i)).2.2 }
    obtain ⟨m1, m2, m3⟩ := dispatchGo_mono env hasMedia message msgs none
      rest (i + 1)
      { enviados := acc.enviados +
          (if (processRecipient (env i) hasMedia orig0
            (currentMessageAt msgs message i)).1 then 1 else 0),
        fallidos := acc.fallidos +
          (if (processRecipient (env i) hasMedia orig0
            (currentMessageAt msgs message i)).1 then 0 else 1),
        failedNumbers := acc.failedNumbers ++
          (processRecipient (env i) hasMedia orig0
            (currentMessageAt msgs message i)).2.1.toList,
        actions := acc.actions ++
          (processRecipient (env i) hasMedia orig0
            (currentMessageAt msgs message i)).2.2 }
    refine ⟨?_, ?_, ?_, ?_⟩
    · rw [c1]
      dsimp only
      simp only [List.length_cons]
      by_cases hr : (processRecipient (env i) hasMedia orig0
          (currentMessageAt msgs message i)).1 = true
      · rw [if_pos hr, if_pos hr]
        omega
      · rw [if_neg hr, if_neg hr]
        omega
    · intro j orig hj
      rcases j with _ | j'
      · have horig : orig0 = orig := by simpa using hj
        subst horig
        refine m3 _ (List.mem_append_right _ ?_)
        exact processRecipient_resolve_mem (env i) hasMedia orig0
          (currentMessageAt msgs message i)
      · exact c2 j' orig (by simpa using hj)
    · intro j orig f hj hf
      rcases j with _ | j'
      · have horig : orig0 = orig := by simpa using hj
        subst horig
        rw [Nat.add_zero] at hf
        refine m2 f (List.mem_append_right _ ?_)
        rw [hf]
        simp
      · have hidx : i + (j' + 1) = (i + 1) + j' := by omega
        rw [hidx] at hf
        exact c3 j' orig f (by simpa using hj) hf
    · intro j orig hj hr
      rcases j with _ | j'
      · have horig : orig0 = orig := by simpa using hj
        subst horig
        rw [Nat.add_zero] at hr
        have heq1 : acc.enviados +
            (if (processRecipient (env i) hasMedia orig0
              (currentMessageAt msgs message i)).1 then 1 else 0) =
            acc.enviados + 1 := by
          rw [if_pos hr]
        exact Nat.le_trans (Nat.le_of_eq heq1.symm) m1
      · have hidx : i + (j' + 1) = (i + 1) + j' := by omega
        rw [hidx] at hr
        have hrec := c4 j' orig (by simpa using hj) hr
        exact Nat.le_trans
          (Nat.add_le_add_right (Nat.le_add_right acc.enviados _) 1) hrec

theorem runDispatch_eq (abortAt : Option Nat) (env : Nat → ClientEnv)
    (hasMedia : Bool) (message : Option String) (numbers msgs : List String) :
    runDispatch abortAt env hasMedia message numbers msgs =
      dispatchGo env hasMedia message msgs abortAt numbers 0
        { enviados := 0, fallidos := 0, failedNumbers := [], actions := [] } :=
  rfl

/-- Claim C2: a recipient whose resolution yields no routable id is
recorded as a failure with the not-a-valid-recipient reason while the
batch continues — every recipient of the list (earlier and later) still
gets its resolution attempted — and on completion the counters aggregate:
`sent + failed` equals the number of recipients. -/
theorem dispatch_partial_failure (env : Nat → ClientEnv) (hasMedia : Bool)
    (message : Option String) (numbers msgs : List String) (i : Nat)
    (orig : String) (hi : numbers.get? i = some orig)
    (hres : (env i).getNumberId (normalizeNumber orig) = Except.ok none) :
    (orig, notValidReason) ∈
      (runDispatch none env hasMedia message numbers msgs).failedNumbers ∧
    (∀ (j : Nat) (o : String), numbers.get? j = some o →
      SendAction.resolveCall (normalizeNumber o) ∈
        (runDispatch none env hasMedia message numbers msgs).actions) ∧
    (runDispatch none env hasMedia message numbers msgs).enviados +
        (runDispatch none env hasMedia message numbers msgs).fallidos =
      numbers.length := by
  obtain ⟨c1, c2, c3, c4⟩ := dispatchGo_spec env hasMedia message msgs
    numbers 0 { enviados := 0, fallidos := 0, failedNumbers := [], actions := [] }
  rw [runDispatch_eq]
  refine ⟨?_, ?_, ?_⟩
  · have hfail := (processRecipient_resolve_none (env i) hasMedia orig
      (currentMessageAt msgs message i) hres).2
    refine c3 i orig (orig, notValidReason) hi ?_
    rw [Nat.zero_add]
    exact hfail
  · intro j o hj
    exact c2 j o hj
  · simpa using c1

/-- Three recipients; the second one ("123") has no routable id. -/
def c2Numbers : List String := ["70000001", "123", "70000002"]

/-- Resolution oracle for the C2 witness: the two normalized valid numbers
resolve, everything else does not; all sends succeed. -/
def c2Env : Nat → ClientEnv := fun _ =>
  { getNumberId := fun n =>
      if n = "59170000001" then Except.ok (some "w1")
      else if n = "59170000002" then Except.ok (some "w2")
      else Except.ok none,
    sendMediaMsg := fun _ _ => Except.ok (),
    sendTextMsg := fun _ _ => Except.ok () }

/-- Witness for C2 at the spec's own example: 3 recipients, recipient 2
fails resolution; dispatch reports `sent = 2, failed = 1`, the failure
list contains exactly recipient 2, and recipients 1 and 3 were still
attempted (their sends appear in the action trace). -/
theorem dispatch_partial_failure_witness :
    (c2Numbers.get? 1 = some "123" ∧
      (c2Env 1).getNumberId (normalizeNumber "123") = Except.ok none) ∧
    (("123", notValidReason) ∈
        (runDispatch none c2Env false (some "hola") c2Numbers
        []).failedNumbers ∧
      (∀ (j : Nat) (o : String), c2Numbers.get? j = some o →
        SendAction.resolveCall (normalizeNumber o) ∈
          (runDispatch none c2Env false (some "hola") c2Numbers []).actions) ∧
      (runDispatch none c2Env false (some "hola") c2Numbers []).enviados +
          (runDispatch none c2Env false (some "hola") c2Numbers
          []).fallidos = c2Numbers.length) ∧
    (runDispatch none c2Env false (some "hola") c2Numbers [] =
      { enviados := 2, fallidos := 1,
        failedNumbers := [("123", notValidReason)],
        actions := [SendAction.resolveCall "59170000001",
          SendAction.sendTextCall "w1" "hola",
          SendAction.resolveCall "123",
          SendAction.resolveCall "59170000002",
          SendAction.sendTextCall "w2" "hola"] }) :=
  ⟨⟨by decide, rfl⟩,
    dispatch_partial_failure c2Env false (some "hola") c2Numbers [] 1 "123"
      (by decide) rfl,
    by decide⟩

/-- Claim C10: a recipient that resolves to a routable id is counted as
sent even when no media payload was supplied and its per-recipient
message is empty — the loop body makes only the resolve call, no send
call, yet still increments the sent counter — and on completion each
recipient lands in exactly one counter: `sent + failed` equals the
recipient count, with the sent counter at least 1 because of that
recipient. -/
theorem dispatch_counts_silent_send (env : Nat → ClientEnv)
    (message : Option String) (numbers msgs : List String) (i : Nat)
    (orig cid : String)
    (hi : numbers.get? i = some orig)
    (hres : (env i).getNumberId (normalizeNumber orig) = Except.ok (some cid))
    (hmsg : currentMessageAt msgs message i = "") :
    processRecipient (env i) false orig (currentMessageAt msgs message i) =
      (true, none, [SendAction.resolveCall (normalizeNumber orig)]) ∧
    (runDispatch none env false message numbers msgs).enviados +
        (runDispatch none env false message numbers msgs).fallidos =
      numbers.length ∧
    1 ≤ (runDispatch none env false message numbers msgs).enviados := by
  have hpr : processRecipient (env i) false orig
      (currentMessageAt msgs message i) =
      (true, none, [SendAction.resolveCall (normalizeNumber orig)]) := by
    rw [hmsg]
    exact processRecipient_silent_success (env i) orig cid hres
  obtain ⟨c1, c2, c3, c4⟩ := dispatchGo_spec env false message msgs numbers 0
    { enviados := 0, fallidos := 0, failedNumbers := [], actions := [] }
  rw [runDispatch_eq]
  refine ⟨hpr, by simpa using c1, ?_⟩
  have hsent := c4 i orig hi (by rw [Nat.zero_add, hpr])
  simpa using hsent

/-- Resolution oracle for the C10 witness: only the normalized
`"59112345678"` resolves. -/
def c10Env : Nat → ClientEnv := fun _ =>
  { getNumberId := fun n =>
      if n = "59112345678" then Except.ok (some "w") else Except.ok none,
    sendMediaMsg := fun _ _ => Except.ok (),
    sendTextMsg := fun _ _ => Except.ok () }

/-- Witness for C10: one resolvable recipient, no media, no message at
all — it is counted as sent and the trace holds only the resolve call. -/
theorem dispatch_counts_silent_send_witness :
    ((["12345678"] : List String).get? 0 = some "12345678" ∧
      (c10Env 0).getNumberId (normalizeNumber "12345678") =
        Except.ok (some "w") ∧
      currentMessageAt [] none 0 = "") ∧
    (processRecipient (c10Env 0) false "12345678"
        (currentMessageAt [] none 0) =
      (true, none, [SendAction.resolveCall (normalizeNumber "12345678")]) ∧
      (runDispatch none c10Env false none ["12345678"] []).enviados +
          (runDispatch none c10Env false none ["12345678"] []).fallidos =
        (["12345678"] : List String).length ∧
      1 ≤ (runDispatch none c10Env false none ["12345678"] []).enviados) ∧
    (runDispatch none c10Env false none ["12345678"] [] =
      { enviados := 1, fallidos := 0, failedNumbers := [],
        actions := [SendAction.resolveCall "59112345678"] }) :=
  ⟨⟨by decide, rfl, by decide⟩,
    dispatch_counts_silent_send c10Env none ["12345678"] [] 0 "12345678" "w"
      (by decide) rfl (by decide),
    by decide⟩

/-! ## The `/send-messages` handler control flow (`src/index.js`, 363–526) -/

inductive SendExit where
  | missingUserId
  | notReady
  | busy
  | badJson
  | noContent
  | noNumbers
  | accepted
  | thrown
deriving Repr, DecidableEq

/-- Observable resource actions of the handler: deleting the uploaded
media file (`fs.unlink`/`fs.unlinkSync`), releasing the session lock, and
sending the HTTP response. -/
inductive ResAction where
  | unlinkMedia
  | releaseAct (userId : String)
  | respond (e : SendExit)
deriving Repr, DecidableEq

/-- The request as the handler sees it: `userId`, the shared `message`
field, whether a media file was uploaded, whether `fs.readFileSync` on it
succeeds, whether the synchronous `fs.unlinkSync(mediaFile.path)` on the
rejection paths succeeds (that call sits outside any `try`, so a throw
propagates out of the handler), and the outcome of the `JSON.parse` +
padding block (numbers and per-recipient messages). -/
structure SendReq where
  userId : Option String
  message : Option String
  hasMediaFile : Bool
  mediaReadOk : Bool
  unlinkSyncOk : Bool
  parsed : Except Unit (List String × List String)

structure FlowOut where
  exit : SendExit
  state : SMState
  trace : List ResAction
  dispatch : Option DispatchResult

/-- `if (mediaFile) fs.unlinkSync(mediaFile.path)` when it completes. -/
def unlinkPart (req : SendReq) : List ResAction :=
  if req.hasMediaFile then [ResAction.unlinkMedia] else []

/-- JavaScript truthiness of `message` (`undefined` and `""` are falsy). -/
def jsTruthy (o : Option String) : Bool :=
  match o with
  | none => false
  | some s => !decide (s = "")

/-- The handler in statement order: validate `userId`, session readiness,
`acquireLock`; parse/normalize the JSON fields (releasing the lock on the
`catch` path); validate content and recipient count (releasing the lock
before each rejection); process the media file (a read failure deletes
the upload asynchronously and leaves `media = null`); respond `accepted`;
then the detached background block — `updateActivity`, the dispatch loop
(which may be aborted by a catastrophic out-of-try exception per
`abortAt`), and a `finally` that deletes the upload (with the
asynchronous, callback-based `fs.unlink`, which cannot throw into the
handler) and then releases the lock.

Every early-return path instead uses the SYNCHRONOUS, unguarded
`fs.unlinkSync(mediaFile.path)` BEFORE its `releaseLock`/response: when a
media file exists and that call throws (`unlinkSyncOk = false`), the
exception propagates out of the handler (`exit = thrown`, answered only
by the express error middleware) and the statements after it — including
`releaseLock` — never run. -/
def sendMessagesFlow (now : Nat) (env : Nat → ClientEnv)
    (abortAt : Option Nat) (req : SendReq) (s : SMState) : FlowOut :=
  match req.userId with
  | none =>
    if req.hasMediaFile = true ∧ req.unlinkSyncOk = false then
      { exit := SendExit.thrown, state := s,
        trace := [ResAction.unlinkMedia], dispatch := none }
    else
      { exit := SendExit.missingUserId, state := s,
        trace := unlinkPart req ++ [ResAction.respond SendExit.missingUserId],
        dispatch := none }
  | some uid =>
    if ¬ ((alistGet s.sessions uid).isSome = true ∧
        getSessionStatus s uid = "ready") then
      if req.hasMediaFile = true ∧ req.unlinkSyncOk = false then
        { exit := SendExit.thrown, state := s,
          trace := [ResAction.unlinkMedia], dispatch := none }
      else
        { exit := SendExit.notReady, state := s,
          trace := unlinkPart req ++ [ResAction.respond SendExit.notReady],
          dispatch := none }
    else if (acquireLock now s uid).1 = false then
      if req.hasMediaFile = true ∧ req.unlinkSyncOk = false then
        { exit := SendExit.thrown, state := (acquireLock now s uid).2,
          trace := [ResAction.unlinkMedia], dispatch := none }
      else
        { exit := SendExit.busy, state := (acquireLock now s uid).2,
          trace := unlinkPart req ++ [ResAction.respond SendExit.busy],
          dispatch := none }
    else
      match req.parsed with
      | .error _ =>
        if req.hasMediaFile = true ∧ req.unlinkSyncOk = false then
          { exit := SendExit.thrown, state := (acquireLock now s uid).2,
            trace := [ResAction.unlinkMedia], dispatch := none }
        else
          { exit := SendExit.badJson,
            state := releaseLock (acquireLock now s uid).2 uid,
            trace := unlinkPart req ++
              [ResAction.releaseAct uid, ResAction.respond SendExit.badJson],
            dispatch := none }
      | .ok (numbersRaw, msgs) =>
        if jsTruthy req.message = false ∧ req.hasMediaFile = false then
          if req.hasMediaFile = true ∧ req.unlinkSyncOk = false then
            { exit := SendExit.thrown, state := (acquireLock now s uid).2,
              trace := [ResAction.unlinkMedia], dispatch := none }
          else
            { exit := SendExit.noContent,
              state := releaseLock (acquireLock now s uid).2 uid,
              trace := unlinkPart req ++
                [ResAction.releaseAct uid,
                  ResAction.respond SendExit.noContent],
              dispatch := none }
        else if numbersRaw = [] then
          if req.hasMediaFile = true ∧ req.unlinkSyncOk = false then
            { exit := SendExit.thrown, state := (acquireLock now s uid).2,
              trace := [ResAction.unlinkMedia], dispatch := none }
          else
            { exit := SendExit.noNumbers,
              state := releaseLock (acquireLock now s uid).2 uid,
              trace := unlinkPart req ++
                [ResAction.releaseAct uid,
                  ResAction.respond SendExit.noNumbers],
              dispatch := none }
        else
          { exit := SendExit.accepted,
            state := releaseLock
              (updateActivity now (acquireLock now s uid).2 uid) uid,
            trace :=
              (if req.hasMediaFile = true ∧ req.mediaReadOk = false then
                [ResAction.unlinkMedia] else []) ++
              [ResAction.respond SendExit.accepted] ++
              unlinkPart req ++ [ResAction.releaseAct uid],
            dispatch := some (runDispatch abortAt env
              (req.hasMediaFile && req.mediaReadOk) req.message numbersRaw
              msgs) }

/-- A bulk-send request from user "a" with a media upload whose JSON
fields fail to parse and whose synchronous deletion throws. -/
def c3BadReq : SendReq :=
  { userId := some "a", message := some "hi", hasMediaFile := true,
    mediaReadOk := true, unlinkSyncOk := false,
    parsed := Except.error () }

/-- Claim C3 is false as stated: on the bad-JSON rejection path the
handler runs the unguarded synchronous `fs.unlinkSync(mediaFile.path)`
BEFORE `releaseLock`.  Against the ready session "a" (lock initially
free), the lock is acquired, the parse fails, the deletion throws — and
the handler exits via the propagating exception with the lock still held
(`some 3`) and no release action in its trace: the lock leaks, and it
has no expiry. -/
theorem c3_lock_leak_counterexample :
    alistGet c4Ready.sessionLocks "a" = none ∧
      getSessionStatus c4Ready "a" = "ready" ∧
      (sendMessagesFlow 3 c10Env none c3BadReq c4Ready).exit =
        SendExit.thrown ∧
      alistGet (sendMessagesFlow 3 c10Env none c3BadReq
        c4Ready).state.sessionLocks "a" = some 3 ∧
      ResAction.releaseAct "a" ∉
        (sendMessagesFlow 3 c10Env none c3BadReq c4Ready).trace := by
  decide

/-- Claim C3 (amended): whenever the handler acquires the session lock
(userId present, session ready, lock free), (1) on the accepted path the
background `finally` block releases the lock unconditionally — whatever
the loop or the (asynchronous, non-throwing) media deletion there do —
deleting the upload immediately before the release when one exists; and
(2) PROVIDED the synchronous media deletion on the rejection paths does
not throw (no media file, or `fs.unlinkSync` succeeds), the lock is also
released on every validation-rejection path, before the rejection
response.  Without that proviso the claim fails: a throwing
`fs.unlinkSync` on the bad-JSON or no-recipients path propagates before
`releaseLock` and permanently leaks the lock. -/
theorem send_messages_lock_released (now : Nat) (env : Nat → ClientEnv)
    (abortAt : Option Nat) (req : SendReq) (s : SMState) (uid : String)
    (huid : req.userId = some uid)
    (hready : (alistGet s.sessions uid).isSome = true ∧
      getSessionStatus s uid = "ready")
    (hfree : alistGet s.sessionLocks uid = none) :
    ((sendMessagesFlow now env abortAt req s).exit = SendExit.accepted →
      alistGet (sendMessagesFlow now env abortAt req
          s).state.sessionLocks uid = none ∧
      (req.hasMediaFile = true →
        ∃ pre, (sendMessagesFlow now env abortAt req s).trace =
          pre ++ [ResAction.unlinkMedia, ResAction.releaseAct uid]) ∧
      (req.hasMediaFile = false →
        ∃ pre, (sendMessagesFlow now env abortAt req s).trace =
          pre ++ [ResAction.releaseAct uid])) ∧
    ((req.hasMediaFile = true → req.unlinkSyncOk = true) →
      alistGet (sendMessagesFlow now env abortAt req
          s).state.sessionLocks uid = none ∧
      (((sendMessagesFlow now env abortAt req s).exit = SendExit.badJson ∨
          (sendMessagesFlow now env abortAt req s).exit =
            SendExit.noContent ∨
          (sendMessagesFlow now env abortAt req s).exit =
            SendExit.noNumbers) →
        ∃ pre, (sendMessagesFlow now env abortAt req s).trace =
          pre ++ [ResAction.releaseAct uid,
            ResAction.respond (sendMessagesFlow now env abortAt req
              s).exit])) := by
  have ha : acquireLock now s uid =
      (true, { s with sessionLocks := alistSet s.sessionLocks uid now }) := by
    unfold acquireLock
    rw [if_neg (by rw [hfree]; simp)]
  unfold sendMessagesFlow
  rw [huid]
  dsimp only
  rw [if_neg (not_not_intro hready), ha]
  dsimp only
  rw [if_neg (by simp)]
  rcases hp : req.parsed with e | pair
  · by_cases hthrow : req.hasMediaFile = true ∧ req.unlinkSyncOk = false
    · rw [if_pos hthrow]
      constructor
      · intro h
        simp at h
      · intro hunlink
        exact absurd (hunlink hthrow.1) (by rw [hthrow.2]; simp)
    · rw [if_neg hthrow]
      constructor
      · intro h
        simp at h
      · intro _
        refine ⟨alistGet_erase_self _ _, ?_⟩
        intro _
        exact ⟨unlinkPart req, by simp⟩
  · obtain ⟨numbersRaw, msgs⟩ := pair
    dsimp only
    by_cases hcontent : jsTruthy req.message = false ∧ req.hasMediaFile = false
    · rw [if_pos hcontent]
      rw [if_neg (by rw [hcontent.2]; simp)]
      constructor
      · intro h
        simp at h
      · intro _
        refine ⟨alistGet_erase_self _ _, ?_⟩
        intro _
        exact ⟨unlinkPart req, by simp⟩
    · rw [if_neg hcontent]
      by_cases hnum : numbersRaw = []
      · rw [if_pos hnum]
        by_cases hthrow : req.hasMediaFile = true ∧ req.unlinkSyncOk = false
        · rw [if_pos hthrow]
          constructor
          · intro h
            simp at h
          · intro hunlink
            exact absurd (hunlink hthrow.1) (by rw [hthrow.2]; simp)
        · rw [if_neg hthrow]
          constructor
          · intro h
            simp at h
          · intro _
            refine ⟨alistGet_erase_self _ _, ?_⟩
            intro _
            exact ⟨unlinkPart req, by simp⟩
      · rw [if_neg hnum]
        constructor
        · intro _
          refine ⟨alistGet_erase_self _ _, ?_, ?_⟩
          · intro hm
            refine ⟨(if req.hasMediaFile = true ∧ req.mediaReadOk = false then
              [ResAction.unlinkMedia] else []) ++
              [ResAction.respond SendExit.accepted], ?_⟩
            simp [unlinkPart, hm]
          · intro hm
            refine ⟨(if req.hasMediaFile = true ∧ req.mediaReadOk = false then
              [ResAction.unlinkMedia] else []) ++
              [ResAction.respond SendExit.accepted], ?_⟩
            simp [unlinkPart, hm]
        · intro _
          refine ⟨alistGet_erase_self _ _, ?_⟩
          intro h
          rcases h with h | h | h <;> simp at h

/-- A well-formed bulk-send request from user "a" with a media upload
whose synchronous deletion would succeed. -/
def c3Req : SendReq :=
  { userId := some "a", message := some "hi", hasMediaFile := true,
    mediaReadOk := true, unlinkSyncOk := true,
    parsed := Except.ok (["12345678"], []) }

/-- Witness for the amended C3: the ready session "a" of `c4Ready` (lock
free), a valid request with media whose deletion succeeds — the handler
accepts, and the lock is released with the media unlink immediately
before it. -/
theorem send_messages_lock_released_witness :
    (c3Req.userId = some "a" ∧
      ((alistGet c4Ready.sessions "a").isSome = true ∧
        getSessionStatus c4Ready "a" = "ready") ∧
      alistGet c4Ready.sessionLocks "a" = none) ∧
    (((sendMessagesFlow 3 c10Env none c3Req c4Ready).exit =
          SendExit.accepted →
        alistGet (sendMessagesFlow 3 c10Env none c3Req
            c4Ready).state.sessionLocks "a" = none ∧
        (c3Req.hasMediaFile = true →
          ∃ pre, (sendMessagesFlow 3 c10Env none c3Req c4Ready).trace =
            pre ++ [ResAction.unlinkMedia, ResAction.releaseAct "a"]) ∧
        (c3Req.hasMediaFile = false →
          ∃ pre, (sendMessagesFlow 3 c10Env none c3Req c4Ready).trace =
            pre ++ [ResAction.releaseAct "a"])) ∧
      ((c3Req.hasMediaFile = true → c3Req.unlinkSyncOk = true) →
        alistGet (sendMessagesFlow 3 c10Env none c3Req
            c4Ready).state.sessionLocks "a" = none ∧
        (((sendMessagesFlow 3 c10Env none c3Req c4Ready).exit =
              SendExit.badJson ∨
            (sendMessagesFlow 3 c10Env none c3Req c4Ready).exit =
              SendExit.noContent ∨
            (sendMessagesFlow 3 c10Env none c3Req c4Ready).exit =
              SendExit.noNumbers) →
          ∃ pre, (sendMessagesFlow 3 c10Env none c3Req c4Ready).trace =
            pre ++ [ResAction.releaseAct "a",
              ResAction.respond (sendMessagesFlow 3 c10Env none c3Req
                c4Ready).exit]))) :=
  ⟨⟨rfl, ⟨by decide, by decide⟩, by decide⟩,
    send_messages_lock_released 3 c10Env none c3Req c4Ready "a" rfl
      ⟨by decide, by decide⟩ (by decide)⟩
